import Mathlib

/-!
# To-do list application: task store, filtering, alarm scan

A shallow embedding of `src/script.js` (class `TodoApp`).

Conventions of the embedding

* A JavaScript string is its sequence of UTF-16 code units (`JSString`); `length`
  counts code units, as `String.prototype.length` does.
* Task ids and the id counter are JavaScript numbers (doubles) holding integers; they are
  modelled as `Int`, and an addition is rounded to the nearest double (`jsAdd`), so that
  `9007199254740992 + 1` is `9007199254740992` as in the program.
* A `Date` is its time value: milliseconds since the epoch, an `Int`.  The host time zone
  is a `Zone`: the offset in force at a moment, and the offset with which a local date and
  time is read (they differ around a daylight-saving change).
* The values of the date and time form controls (`'YYYY-MM-DD'`, `'HH:MM'`, or the
  empty string) are modelled as `Option CalDate` and `Option ClockTime`.
* DOM rendering, `showMessage` pop-ups, audio and `localStorage` writes are outputs;
  the message of an operation and the calls of `triggerAlarm` are returned next to
  the new state.  Whether `triggerAlarm` returns or throws is an input of the alarm scan.
-/

namespace Todo

/-! ## JavaScript numbers that hold integers -/

/-- Spacing of the doubles of magnitude `a`: 1 below `2 ^ 53`, doubling with each further
binary digit.  The fuel bounds the number of halvings. -/
def ulpAux : Nat → Nat → Nat
  | 0, _ => 1
  | fuel + 1, a => if a < 9007199254740992 then 1 else 2 * ulpAux fuel (a / 2)

/-- The double nearest to an integer, ties to the even significand (magnitudes below
`2 ^ 1024`). -/
def roundDouble (n : Int) : Int :=
  let a := n.natAbs
  let u := ulpAux 1024 a
  let q := a / u
  let r := a % u
  let q1 := if u < 2 * r ∨ (2 * r = u ∧ q % 2 = 1) then q + 1 else q
  if n < 0 then -((q1 * u : Nat) : Int) else ((q1 * u : Nat) : Int)

/-- The operator `+` on two numbers that hold integers: the exact sum, rounded. -/
def jsAdd (x y : Int) : Int :=
  roundDouble (x + y)

/-- The test `Number.isSafeInteger`: magnitude at most `2 ^ 53 - 1`. -/
def isSafeInteger (n : Int) : Bool :=
  decide (-9007199254740991 ≤ n) && decide (n ≤ 9007199254740991)

/-! ## JavaScript strings -/

/-- A JavaScript string: the list of its UTF-16 code units. -/
abbrev JSString := List Nat

/-- The code units removed by `String.prototype.trim`: ECMAScript `WhiteSpace`
(TAB, VT, FF, SP, NBSP, ZWNBSP and the Unicode space separators) and
`LineTerminator` (LF, CR, LS, PS). -/
def isWhiteSpace (c : Nat) : Bool :=
  c == 9 || c == 10 || c == 11 || c == 12 || c == 13 || c == 32 || c == 160 ||
  c == 5760 || (8192 ≤ c && c ≤ 8202) || c == 8232 || c == 8233 || c == 8239 ||
  c == 8287 || c == 12288 || c == 65279

/-- The method `String.prototype.trim`: strip white space from both ends. -/
def trim (s : JSString) : JSString :=
  ((s.dropWhile isWhiteSpace).reverse.dropWhile isWhiteSpace).reverse

/-- The number of characters of a string in the sense of the specification's "100
characters": Unicode code points, a high surrogate followed by a low surrogate being one
character.  The program does not compute this; it is compared with `length`. -/
def charCount : JSString → Nat
  | [] => 0
  | [_] => 1
  | a :: b :: rest =>
    if 55296 ≤ a ∧ a ≤ 56319 ∧ 56320 ≤ b ∧ b ≤ 57343 then 1 + charCount rest
    else 1 + charCount (b :: rest)

/-! ## Dates (the part of ECMAScript `Date` the program uses) -/

/-- A calendar date, the value `'YYYY-MM-DD'` of a date control. -/
structure CalDate where
  year : Int
  month : Int
  day : Int
deriving DecidableEq, Repr

/-- A time of day at minute resolution, the value `'HH:MM'` of a time control. -/
structure ClockTime where
  hour : Int
  minute : Int
deriving DecidableEq, Repr

/-- The host time zone.  `offsetAt t` is the offset from UTC, in minutes east, in force at
the moment `t` (ECMAScript `LocalTZA(t, true)`); `offsetOfLocal l` is the offset with which
the local time value `l` is read (`LocalTZA(l, false)`: in an hour that the local clock
repeats or skips, the offset before the change). -/
structure Zone where
  offsetAt : Int → Int
  offsetOfLocal : Int → Int

/-- A zone without daylight saving: the same offset always. -/
def Zone.fixed (tz : Int) : Zone :=
  { offsetAt := fun _ => tz, offsetOfLocal := fun _ => tz }

/-- New York around the end of daylight saving on 2024-11-03: UTC-4 before 06:00 UTC,
UTC-5 from then on; a local time before 02:00 of that day, the repeated hour from 01:00
included, is read as UTC-4. -/
def Zone.newYorkFall2024 : Zone :=
  { offsetAt := fun t => if t < 1730613600000 then -240 else -300,
    offsetOfLocal := fun l => if l < 1730599200000 then -240 else -300 }

def msPerMinute : Int := 60000

def msPerDay : Int := 86400000

/-- Leap years of the proleptic Gregorian calendar. -/
def isLeapYear (y : Int) : Bool :=
  y % 4 == 0 && (y % 100 != 0 || y % 400 == 0)

def daysInMonth (y m : Int) : Int :=
  if m = 2 then (if isLeapYear y then 29 else 28)
  else if m = 4 ∨ m = 6 ∨ m = 9 ∨ m = 11 then 30
  else 31

/-- The date part the date-time parser accepts: a four-digit year, a month from 1 to 12 and
a day from 1 to 31.  A day past the end of its month is accepted and runs into the next
month, as in V8 (a date control never gives such a value). -/
def CalDate.isValid (d : CalDate) : Bool :=
  decide (0 ≤ d.year) && decide (d.year ≤ 9999) &&
  decide (1 ≤ d.month) && decide (d.month ≤ 12) &&
  decide (1 ≤ d.day) && decide (d.day ≤ 31)

/-- The time part the date-time parser accepts: `00:00` to `23:59`, and `24:00`, the end of
the day. -/
def ClockTime.isValid (t : ClockTime) : Bool :=
  (decide (0 ≤ t.hour) && decide (t.hour ≤ 23) &&
    decide (0 ≤ t.minute) && decide (t.minute ≤ 59)) ||
  (decide (t.hour = 24) && decide (t.minute = 0))

/-- Day number (days since 1970-01-01) of a calendar date, ECMAScript `MakeDay`. -/
def daysFromCivil (d : CalDate) : Int :=
  let y := if d.month ≤ 2 then d.year - 1 else d.year
  let era := y / 400
  let yoe := y - era * 400
  let mp := if d.month > 2 then d.month - 3 else d.month + 9
  let doy := (153 * mp + 2) / 5 + d.day - 1
  let doe := yoe * 365 + yoe / 4 - yoe / 100 + doy
  era * 146097 + doe - 719468

/-- Day, counted from the start of a 400-year era (1 March), on which year `y` of the era
begins. -/
def yearStart (y : Int) : Int :=
  365 * y + y / 4 - y / 100

/-- Year of the era (0 to 399) that contains day `doe` of the era: the last year that
begins on or before that day. -/
def yearOfEra (doe : Int) : Int :=
  let e := if doe / 365 ≤ 399 then doe / 365 else 399
  if yearStart e ≤ doe then e else e - 1

/-- Calendar date of a day number, ECMAScript `YearFromTime`, `MonthFromTime`,
`DateFromTime`. -/
def civilFromDays (z0 : Int) : CalDate :=
  let z := z0 + 719468
  let era := z / 146097
  let doe := z - era * 146097
  let yoe := yearOfEra doe
  let doy := doe - yearStart yoe
  let mp := (5 * doy + 2) / 153
  let day := doy - (153 * mp + 2) / 5 + 1
  let month := if mp < 10 then mp + 3 else mp - 9
  let y := yoe + era * 400
  { year := if month ≤ 2 then y + 1 else y, month := month, day := day }

/-- The date part of `toISOString()`, that is `toISOString().split('T')[0]`: the calendar
date of the time value in UTC.  Outside the years 0 to 9999 the string has a sign and six
year digits and is no `'YYYY-MM-DD'` value: `none`. -/
def toISODate (t : Int) : Option CalDate :=
  let d := civilFromDays (t / msPerDay)
  if 0 ≤ d.year ∧ d.year ≤ 9999 then some d else none

/-- Local time value: the time value shifted by the zone offset in force (`LocalTime`). -/
def localTime (t : Int) (zone : Zone) : Int :=
  t + zone.offsetAt t * msPerMinute

/-- The first five characters of `toTimeString()`, `'HH:MM'` on the local clock. -/
def toTimeHHMM (t : Int) (zone : Zone) : ClockTime :=
  let lt := localTime t zone
  { hour := (lt / 3600000) % 24, minute := (lt / msPerMinute) % 60 }

/-- The calendar date on the local clock. -/
def toLocalDate (t : Int) (zone : Zone) : CalDate :=
  civilFromDays (localTime t zone / msPerDay)

/-- The constructor call `new Date(date + 'T' + time)`: a date-time string without a zone
designator is a local time, read with the offset the zone gives for it.  `none` is an
invalid date (time value NaN). -/
def parseLocal (date : CalDate) (time : ClockTime) (zone : Zone) : Option Int :=
  if date.isValid && time.isValid then
    let l := daysFromCivil date * msPerDay + (time.hour * 60 + time.minute) * msPerMinute
    some (l - zone.offsetOfLocal l * msPerMinute)
  else none

/-- The comparison `a < b` of two dates, false when `a` is invalid (NaN). -/
def dateLt (a : Option Int) (b : Int) : Bool :=
  match a with
  | some x => decide (x < b)
  | none => false

/-! ## Tasks and the application state -/

/-- A task object.  The last four fields are absent (`undefined`) on a task created
without a schedule; `alarmTriggered` is absent until the alarm fires. -/
structure Task where
  id : Int
  text : JSString
  completed : Bool
  createdAt : Int
  dueDate : Option CalDate
  dueTime : Option ClockTime
  hasAlarm : Option Bool
  alarmTriggered : Option Bool
deriving DecidableEq, Repr

/-- The filter selected by the filter buttons; any other string behaves as `all`. -/
inductive Filter where
  | all
  | active
  | completed
deriving DecidableEq, Repr

/-- The fields of `TodoApp` that hold data: `this.tasks`, `this.currentFilter`,
`this.taskIdCounter`. -/
structure TodoApp where
  tasks : List Task
  currentFilter : Filter
  taskIdCounter : Int
deriving DecidableEq, Repr

/-- The form controls read by `addTask`: `taskInput.value`, `datetimeToggle.checked`,
`taskDate.value`, `taskTime.value` (`none` is the empty string), `alarmToggle.checked`. -/
structure FormInput where
  taskInput : JSString
  datetimeToggle : Bool
  taskDate : Option CalDate
  taskTime : Option ClockTime
  alarmToggle : Bool
deriving DecidableEq, Repr

/-- The texts passed to `showMessage`. -/
inductive Message where
  /-- Error: 'Please enter a task!' -/
  | pleaseEnterTask
  /-- Error: 'Task is too long! Maximum 100 characters.' -/
  | taskTooLong
  /-- Error: 'Date and time cannot be in the past!' -/
  | inThePast
  /-- Error: 'Please select both date and time!' -/
  | selectBoth
  /-- Success: 'Task added successfully!' -/
  | taskAdded
  /-- Success: 'Cleared n completed tasks!' -/
  | cleared (n : Nat)
  /-- Error: 'No tasks to clear!' -/
  | noTasksToClear
  /-- Success: 'All tasks cleared!' -/
  | allCleared
deriving DecidableEq, Repr

/-- The kind argument of `showMessage`: is the message reported as an error? -/
def Message.isError : Message → Bool
  | .pleaseEnterTask => true
  | .taskTooLong => true
  | .inThePast => true
  | .selectBoth => true
  | .noTasksToClear => true
  | _ => false

/-! ## Persistence and start-up -/

/-- The item `todoTasks` of `localStorage`: absent (or empty), present but rejected by
`JSON.parse`, or an array of task records. -/
inductive SavedTasks where
  | missing
  | corrupt
  | parsed (ts : List Task)
deriving DecidableEq, Repr

/-- The two items the program keeps in `localStorage`.  `todoTaskIdCounter` is the
integer `parseInt` reads from the item, `none` when the item is absent. -/
structure Storage where
  todoTasks : SavedTasks
  todoTaskIdCounter : Option Int
deriving DecidableEq, Repr

/-- The method `loadTasks`: the task array it returns, and the value it assigns to
`this.taskIdCounter` on the way (`none` when it assigns nothing). -/
def loadTasks (st : Storage) : List Task × Option Int :=
  match st.todoTasks with
  | .parsed ts => (ts, some (st.todoTaskIdCounter.getD 1))
  | .corrupt => ([], some (st.todoTaskIdCounter.getD 1))
  | .missing => ([], none)

/-- The method `getNextId`, on `this.tasks`: `Math.max(...ids) + 1`, the sum a double. -/
def getNextId (tasks : List Task) : Int :=
  match tasks with
  | [] => 1
  | t :: ts => jsAdd ((ts.map Task.id).foldl max t.id) 1

/-- The data part of `constructor`: `tasks` from `loadTasks`, filter `'all'`, and the
counter from `getNextId` (which overwrites what `loadTasks` assigned). -/
def TodoApp.constructor (st : Storage) : TodoApp :=
  let loaded := loadTasks st
  { tasks := loaded.1, currentFilter := Filter.all, taskIdCounter := getNextId loaded.1 }

/-! ## Operations -/

/-- The method `addTask`, reading the form controls `inp`.  It reads the clock twice:
`created` is the first reading (`createdAt`), `now` the second (the check of the
schedule). -/
def addTask (app : TodoApp) (inp : FormInput) (created now : Int) (zone : Zone) :
    TodoApp × Message :=
  let text := trim inp.taskInput
  if text = [] then (app, Message.pleaseEnterTask)
  else if text.length > 100 then (app, Message.taskTooLong)
  else
    -- `id: this.taskIdCounter++`
    let task : Task :=
      { id := app.taskIdCounter, text := text, completed := false, createdAt := created,
        dueDate := none, dueTime := none, hasAlarm := none, alarmTriggered := none }
    let app1 : TodoApp := { app with taskIdCounter := jsAdd app.taskIdCounter 1 }
    if inp.datetimeToggle then
      match inp.taskDate, inp.taskTime with
      | some date, some time =>
        let task1 : Task :=
          { task with dueDate := some date, dueTime := some time,
                      hasAlarm := some inp.alarmToggle }
        if dateLt (parseLocal date time zone) now then (app1, Message.inThePast)
        else ({ app1 with tasks := task1 :: app1.tasks }, Message.taskAdded)
      | _, _ => (app1, Message.selectBoth)
    else ({ app1 with tasks := task :: app1.tasks }, Message.taskAdded)

/-- In-place update of `toggleTask`: flip `completed` on the first task `find` returns. -/
def toggleFirst (id : Int) : List Task → List Task
  | [] => []
  | t :: ts =>
    if t.id = id then { t with completed := !t.completed } :: ts
    else t :: toggleFirst id ts

/-- The method `toggleTask`. -/
def toggleTask (app : TodoApp) (id : Int) : TodoApp :=
  { app with tasks := toggleFirst id app.tasks }

/-- The method `getFilteredTasks`. -/
def getFilteredTasks (app : TodoApp) : List Task :=
  match app.currentFilter with
  | .active => app.tasks.filter (fun task => !task.completed)
  | .completed => app.tasks.filter (fun task => task.completed)
  | .all => app.tasks

/-- The method `deleteTask`, with the effect of its delayed callback.  The list item is
looked up in the page, which shows the filtered tasks; without it nothing happens. -/
def deleteTask (app : TodoApp) (id : Int) : TodoApp :=
  if (getFilteredTasks app).any (fun t => t.id == id) then
    { app with tasks := app.tasks.filter (fun t => t.id != id) }
  else app

/-- The method `setFilter`. -/
def setFilter (app : TodoApp) (filter : Filter) : TodoApp :=
  { app with currentFilter := filter }

/-- The method `clearCompleted`, with the message it shows. -/
def clearCompleted (app : TodoApp) : TodoApp × Message :=
  let completedCount := (app.tasks.filter (fun t => t.completed)).length
  ({ app with tasks := app.tasks.filter (fun t => !t.completed) },
    Message.cleared completedCount)

/-- The method `clearAll`; `confirm` is the answer to the confirmation dialog. -/
def clearAll (app : TodoApp) (confirm : Bool) : TodoApp × Option Message :=
  if app.tasks.length = 0 then (app, some Message.noTasksToClear)
  else if confirm then
    ({ app with tasks := [], taskIdCounter := 1 }, some Message.allCleared)
  else (app, none)

/-! ## Alarm scan -/

/-- The condition of `checkAlarms` on one task.  `currentDate` is `none` when the date
string of the tick is no `'YYYY-MM-DD'` value; it then equals no due date. -/
def alarmDue (task : Task) (currentDate : Option CalDate) (currentTime : ClockTime) : Bool :=
  task.hasAlarm == some true &&
  (match task.dueDate, currentDate with
    | some due, some current => due == current
    | _, _ => false) &&
  task.dueTime == some currentTime &&
  !task.completed &&
  !(task.alarmTriggered == some true)

/-- The loop of `checkAlarms` from position `i` on: the tasks after the scan, and the
calls of `triggerAlarm`, each with the position of the task object in `this.tasks`.
`notifierOk` tells whether `triggerAlarm` returns: it throws where `Notification` is not
defined or cannot be constructed (it is used unguarded), and the exception ends the loop
before `alarmTriggered` is set. -/
def scanAlarms (currentDate : Option CalDate) (currentTime : ClockTime) (notifierOk : Bool) :
    Nat → List Task → List Task × List (Nat × Task)
  | _, [] => ([], [])
  | i, task :: rest =>
    if alarmDue task currentDate currentTime then
      if notifierOk then
        let r := scanAlarms currentDate currentTime notifierOk (i + 1) rest
        ({ task with alarmTriggered := some true } :: r.1, (i, task) :: r.2)
      else (task :: rest, [(i, task)])
    else
      let r := scanAlarms currentDate currentTime notifierOk (i + 1) rest
      (task :: r.1, r.2)

/-- The method `checkAlarms` at time `now`: `currentTime` is taken from `toTimeString()`
(local clock), `currentDate` from `toISOString()` (UTC). -/
def checkAlarms (app : TodoApp) (now : Int) (zone : Zone) (notifierOk : Bool) :
    TodoApp × List (Nat × Task) :=
  let currentTime := toTimeHHMM now zone
  let currentDate := toISODate now
  let r := scanAlarms currentDate currentTime notifierOk 0 app.tasks
  ({ app with tasks := r.1 }, r.2)

/-! ## Sessions -/

/-- One event of a session. -/
inductive Op where
  | add (inp : FormInput) (created now : Int)
  | toggle (id : Int)
  | delete (id : Int)
  | clearCompleted
  | setFilter (filter : Filter)
  | tick (now : Int) (notifierOk : Bool)
deriving DecidableEq, Repr

/-- State after one event. -/
def step (zone : Zone) (app : TodoApp) : Op → TodoApp
  | .add inp created now => (addTask app inp created now zone).1
  | .toggle id => toggleTask app id
  | .delete id => deleteTask app id
  | .clearCompleted => (clearCompleted app).1
  | .setFilter f => setFilter app f
  | .tick now ok => (checkAlarms app now zone ok).1

/-- The task an `addTask` call put into the store, if it did. -/
def addedTask (r : TodoApp × Message) : Option Task :=
  if r.2 = Message.taskAdded then r.1.tasks.head? else none

/-- The id given to a new task by one event, if the event added a task. -/
def issued (zone : Zone) (app : TodoApp) : Op → Option Int
  | .add inp created now => (addedTask (addTask app inp created now zone)).map Task.id
  | _ => none

/-- State after a sequence of events. -/
def run (zone : Zone) (app : TodoApp) (ops : List Op) : TodoApp :=
  ops.foldl (step zone) app

/-- The ids given to new tasks during a sequence of events, in order. -/
def issuedIds (zone : Zone) (app : TodoApp) : List Op → List Int
  | [] => []
  | op :: ops => (issued zone app op).toList ++ issuedIds zone (step zone app op) ops

/-- The number of `triggerAlarm` calls in a log for the task at position `i`. -/
def callsFor (i : Nat) (log : List (Nat × Task)) : Nat :=
  (log.filter (fun c => c.1 == i)).length

/-- A store with three tasks that are not armed: all due 1970-01-01 00:05, the first
scheduled with the alarm switched off, the second completed, the third with its alarm
already fired. -/
def unarmedStore : TodoApp :=
  ⟨[⟨3, [120], false, 0, some ⟨1970, 1, 1⟩, some ⟨0, 5⟩, some false, none⟩,
    ⟨2, [121], true, 0, some ⟨1970, 1, 1⟩, some ⟨0, 5⟩, some true, none⟩,
    ⟨1, [122], false, 0, some ⟨1970, 1, 1⟩, some ⟨0, 5⟩, some true, some true⟩],
   Filter.all, 4⟩

/-- A text of 51 characters outside the Basic Multilingual Plane (U+1F600, the code units
`D83D DE00`), so of 102 code units. -/
def emoji51 : JSString :=
  (List.replicate 51 [55357, 56832]).flatten

/-! ## Filtering (C7) -/

/-- C7: for every task list, the `active` view and the `completed` view are disjoint and
together hold exactly the tasks of the list, each task in exactly one of them (their
concatenation is a permutation of the list); each view is a subsequence of the list in the
original order; the `all` view is the list itself; and selecting a view leaves the stored
list as it was. -/
theorem getFilteredTasks_partition (app : TodoApp) :
    (∀ t, ¬ (t ∈ getFilteredTasks (setFilter app Filter.active) ∧
        t ∈ getFilteredTasks (setFilter app Filter.completed))) ∧
    (∀ t, t ∈ app.tasks ↔ (t ∈ getFilteredTasks (setFilter app Filter.active) ∨
        t ∈ getFilteredTasks (setFilter app Filter.completed))) ∧
    (getFilteredTasks (setFilter app Filter.active) ++
        getFilteredTasks (setFilter app Filter.completed)).Perm app.tasks ∧
    (getFilteredTasks (setFilter app Filter.active)).Sublist app.tasks ∧
    (getFilteredTasks (setFilter app Filter.completed)).Sublist app.tasks ∧
    (∀ t, (t ∈ getFilteredTasks (setFilter app Filter.active) ↔
        t ∈ app.tasks ∧ t.completed = false) ∧
      (t ∈ getFilteredTasks (setFilter app Filter.completed) ↔
        t ∈ app.tasks ∧ t.completed = true)) ∧
    getFilteredTasks (setFilter app Filter.all) = app.tasks ∧
    (∀ f, (setFilter app f).tasks = app.tasks) := by
  simp only [getFilteredTasks, setFilter]
  refine ⟨?_, ?_, ?_, List.filter_sublist _, List.filter_sublist _, ?_, trivial, fun _ => trivial⟩
  · intro t ht
    simp only [List.mem_filter] at ht
    obtain ⟨⟨_, h1⟩, ⟨_, h2⟩⟩ := ht
    simp [h2] at h1
  · intro t
    simp only [List.mem_filter]
    cases t.completed <;> simp
  · have h := List.filter_append_perm (fun task : Task => task.completed) app.tasks
    exact (List.perm_append_comm.trans h)
  · intro t
    simp [List.mem_filter]

/-! ## Clearing completed tasks (C8) -/

/-- C8: `clearCompleted` keeps exactly the tasks with `completed = false`, unchanged and in
their original order (the result is the sublist of those tasks), removes every task with
`completed = true`, reports the number of tasks removed (length before minus length after),
and leaves the id counter as it was. -/
theorem clearCompleted_spec (app : TodoApp) :
    (∀ t, t ∈ (clearCompleted app).1.tasks ↔ t ∈ app.tasks ∧ t.completed = false) ∧
    (clearCompleted app).1.tasks.Sublist app.tasks ∧
    (∀ l : List Task, l.Sublist app.tasks → (∀ t ∈ l, t.completed = false) →
      l.Sublist (clearCompleted app).1.tasks) ∧
    (∀ t, t ∈ app.tasks → t.completed = true → t ∉ (clearCompleted app).1.tasks) ∧
    (clearCompleted app).2 =
      Message.cleared (app.tasks.length - (clearCompleted app).1.tasks.length) ∧
    (clearCompleted app).2 = Message.cleared (app.tasks.countP (fun t => t.completed)) ∧
    (clearCompleted app).1.taskIdCounter = app.taskIdCounter := by
  simp only [clearCompleted]
  have hlen : (app.tasks.filter (fun t => t.completed)).length =
      app.tasks.length - (app.tasks.filter (fun t => !t.completed)).length := by
    have h := (List.filter_append_perm (fun t : Task => t.completed) app.tasks).length_eq
    simp only [List.length_append] at h
    omega
  refine ⟨?_, List.filter_sublist _, ?_, ?_, ?_, ?_, trivial⟩
  · intro t
    simp [List.mem_filter]
  · intro l hl hall
    have h := hl.filter (fun t : Task => !t.completed)
    have hl2 : l.filter (fun t : Task => !t.completed) = l := by
      apply List.filter_eq_self.mpr
      intro a ha
      simp [hall a ha]
    rw [hl2] at h
    exact h
  · intro t _ hc
    simp [List.mem_filter, hc]
  · rw [hlen]
  · rw [List.countP_eq_length_filter]

/-! ## Addition of numbers that hold integers -/

/-- Below `2 ^ 53` the doubles are one apart. -/
theorem ulpAux_small (fuel a : Nat) (h : a < 9007199254740992) : ulpAux fuel a = 1 := by
  cases fuel with
  | zero => rfl
  | succ f => simp [ulpAux, h]

/-- An integer of magnitude below `2 ^ 53` is a double. -/
theorem roundDouble_small (n : Int) (h : n.natAbs < 9007199254740992) : roundDouble n = n := by
  unfold roundDouble
  simp only [ulpAux_small _ _ h, Nat.div_one, Nat.mod_one, Nat.mul_zero, Nat.mul_one]
  have hc : ¬ (1 < 0 ∨ (0 = 1 ∧ n.natAbs % 2 = 1)) := by omega
  simp only [hc, if_false]
  split_ifs <;> omega

/-- Adding 1 is exact from `-2 ^ 53` up to, and not including, `2 ^ 53`. -/
theorem jsAdd_one (c : Int) (h1 : -9007199254740992 ≤ c) (h2 : c < 9007199254740992) :
    jsAdd c 1 = c + 1 := by
  unfold jsAdd
  by_cases h : c + 1 = 9007199254740992
  · rw [h]; decide
  · exact roundDouble_small _ (by omega)

/-! ## Adding a task without a schedule (C9) -/

/-- With scheduling off, `addTask` is decided by the trimmed text alone. -/
theorem addTask_unscheduled_eq (app : TodoApp) (inp : FormInput) (created now : Int)
    (zone : Zone) (h : inp.datetimeToggle = false) :
    addTask app inp created now zone =
      if trim inp.taskInput = [] then (app, Message.pleaseEnterTask)
      else if (trim inp.taskInput).length > 100 then (app, Message.taskTooLong)
      else
        ({ tasks :=
            { id := app.taskIdCounter, text := trim inp.taskInput, completed := false,
              createdAt := created, dueDate := none, dueTime := none, hasAlarm := none,
              alarmTriggered := none } :: app.tasks,
           currentFilter := app.currentFilter,
           taskIdCounter := jsAdd app.taskIdCounter 1 }, Message.taskAdded) := by
  unfold addTask
  simp only [h, Bool.false_eq_true, if_false]

/-- C9 fails as worded.  A text of 51 emoji has 51 characters, between 1 and 100, but 102
UTF-16 code units, and `addTask` refuses it as too long.  And on a store whose counter is
`2 ^ 53` a successful `addTask` leaves the counter at `2 ^ 53`: it is not increased by 1. -/
theorem addTask_unscheduled_counterexample :
    trim emoji51 = emoji51 ∧ charCount (trim emoji51) = 51 ∧ (trim emoji51).length = 102 ∧
    addTask ⟨[], Filter.all, 1⟩ ⟨emoji51, false, none, none, false⟩ 0 0 (Zone.fixed 0) =
      (⟨[], Filter.all, 1⟩, Message.taskTooLong) ∧
    addTask ⟨[], Filter.all, 9007199254740992⟩ ⟨[120], false, none, none, false⟩ 0 0
        (Zone.fixed 0) =
      (⟨[⟨9007199254740992, [120], false, 0, none, none, none, none⟩], Filter.all,
        9007199254740992⟩, Message.taskAdded) := by
  decide

/-- C9 as amended: with scheduling disabled, `addTask` succeeds if and only if the trimmed
text has between 1 and 100 UTF-16 code units, the unit of `length` (so 100 succeeds and 101
fails); when it does not succeed it reports an error and changes nothing; when it succeeds
the new task has the trimmed text, `completed = false` and the id equal to the counter
before the call, it is first in the list with the previous tasks unchanged after it, and
the counter is the double nearest to the old counter plus 1, which is the old counter plus
1 when the old counter is a safe integer. -/
theorem addTask_unscheduled (app : TodoApp) (inp : FormInput) (created now : Int)
    (zone : Zone) (h : inp.datetimeToggle = false) :
    ((addTask app inp created now zone).2 = Message.taskAdded ↔
      1 ≤ (trim inp.taskInput).length ∧ (trim inp.taskInput).length ≤ 100) ∧
    ((trim inp.taskInput).length = 100 →
      (addTask app inp created now zone).2 = Message.taskAdded) ∧
    ((trim inp.taskInput).length = 101 →
      (addTask app inp created now zone).2 = Message.taskTooLong) ∧
    ((addTask app inp created now zone).2 ≠ Message.taskAdded →
      (addTask app inp created now zone).2.isError = true ∧
      (addTask app inp created now zone).1 = app) ∧
    ((addTask app inp created now zone).2 = Message.taskAdded →
      (addTask app inp created now zone).1 =
        { tasks :=
            { id := app.taskIdCounter, text := trim inp.taskInput, completed := false,
              createdAt := created, dueDate := none, dueTime := none, hasAlarm := none,
              alarmTriggered := none } :: app.tasks,
          currentFilter := app.currentFilter,
          taskIdCounter := jsAdd app.taskIdCounter 1 } ∧
      (isSafeInteger app.taskIdCounter = true →
        (addTask app inp created now zone).1.taskIdCounter = app.taskIdCounter + 1)) := by
  have hsafe : isSafeInteger app.taskIdCounter = true →
      jsAdd app.taskIdCounter 1 = app.taskIdCounter + 1 := by
    intro hs
    simp only [isSafeInteger, Bool.and_eq_true, decide_eq_true_eq] at hs
    exact jsAdd_one _ (by omega) (by omega)
  rw [addTask_unscheduled_eq app inp created now zone h]
  by_cases h1 : trim inp.taskInput = []
  · simp [h1, Message.isError]
  · have hpos : 1 ≤ (trim inp.taskInput).length := by
      cases hl : trim inp.taskInput with
      | nil => exact absurd hl h1
      | cons a l => simp
    by_cases h2 : (trim inp.taskInput).length > 100
    · simp only [h1, h2, if_true, if_false]
      refine ⟨?_, ?_, ?_, ?_, ?_⟩
      · simp; omega
      · intro h3; omega
      · intro _; trivial
      · intro _; exact ⟨rfl, trivial⟩
      · intro h3; simp at h3
    · simp only [h1, h2, if_false]
      refine ⟨?_, ?_, ?_, ?_, ?_⟩
      · simp; omega
      · intro _; trivial
      · intro h3; omega
      · intro h3; simp at h3
      · intro _; exact ⟨trivial, hsafe⟩

/-- C9 as amended, at a concrete input: the text `'  xy '` on a store with one task and
counter 5. -/
theorem addTask_unscheduled_witness :
    (⟨[32, 32, 120, 121, 32], false, none, none, false⟩ : FormInput).datetimeToggle = false ∧
    (addTask ⟨[⟨4, [97], true, 0, none, none, none, none⟩], Filter.all, 5⟩
        ⟨[32, 32, 120, 121, 32], false, none, none, false⟩ 1000 1001 (Zone.fixed 0)).1 =
      ⟨[⟨5, [120, 121], false, 1000, none, none, none, none⟩,
        ⟨4, [97], true, 0, none, none, none, none⟩], Filter.all, 6⟩ :=
  ⟨rfl, ((addTask_unscheduled ⟨[⟨4, [97], true, 0, none, none, none, none⟩], Filter.all, 5⟩
      ⟨[32, 32, 120, 121, 32], false, none, none, false⟩ 1000 1001 (Zone.fixed 0)
      rfl).2.2.2.2 (by decide)).1⟩

/-- What a successful `addTask` does: one new task, first in the list, with the id the
counter had, and the counter advanced. -/
theorem addTask_added (app : TodoApp) (inp : FormInput) (created now : Int) (zone : Zone)
    (h : (addTask app inp created now zone).2 = Message.taskAdded) :
    ∃ t : Task,
      (addTask app inp created now zone).1 =
        { tasks := t :: app.tasks, currentFilter := app.currentFilter,
          taskIdCounter := jsAdd app.taskIdCounter 1 } ∧
      t.id = app.taskIdCounter ∧ t.text = trim inp.taskInput ∧ t.completed = false ∧
      t.createdAt = created ∧ t.alarmTriggered = none ∧
      (inp.datetimeToggle = false →
        t.dueDate = none ∧ t.dueTime = none ∧ t.hasAlarm = none) ∧
      (inp.datetimeToggle = true →
        ∃ date time, inp.taskDate = some date ∧ inp.taskTime = some time ∧
          t.dueDate = some date ∧ t.dueTime = some time ∧
          t.hasAlarm = some inp.alarmToggle ∧
          dateLt (parseLocal date time zone) now = false) := by
  unfold addTask at h ⊢
  by_cases h1 : trim inp.taskInput = []
  · simp [h1] at h
  · by_cases h2 : (trim inp.taskInput).length > 100
    · simp [h1, h2] at h
    · simp only [h1, h2, if_false] at h ⊢
      cases hd : inp.datetimeToggle
      · simp
      · simp only [hd, if_true] at h ⊢
        cases hdate : inp.taskDate <;> cases htime : inp.taskTime <;>
          simp only [hdate, htime] at h ⊢ <;> try simp at h
        split_ifs at h ⊢ with h3
        simp only [Bool.not_eq_true] at h3
        exact ⟨_, rfl, rfl, rfl, rfl, rfl, rfl, fun hf => by simp at hf,
          fun _ => ⟨_, _, rfl, rfl, rfl, rfl, rfl, h3⟩⟩

/-! ## Failed validation (C1) -/

/-- On every failed `addTask` the task list is as before; the counter is as before when the
text is rejected, and advanced when the schedule is rejected. -/
theorem addTask_failure (app : TodoApp) (inp : FormInput) (created now : Int) (zone : Zone)
    (h : (addTask app inp created now zone).2 ≠ Message.taskAdded) :
    (addTask app inp created now zone).1.tasks = app.tasks ∧
    (addTask app inp created now zone).1.currentFilter = app.currentFilter ∧
    (((addTask app inp created now zone).2 = Message.pleaseEnterTask ∨
        (addTask app inp created now zone).2 = Message.taskTooLong) ∧
        (addTask app inp created now zone).1.taskIdCounter = app.taskIdCounter ∨
      ((addTask app inp created now zone).2 = Message.selectBoth ∨
        (addTask app inp created now zone).2 = Message.inThePast) ∧
        (addTask app inp created now zone).1.taskIdCounter = jsAdd app.taskIdCounter 1) := by
  unfold addTask at h ⊢
  by_cases h1 : trim inp.taskInput = []
  · simp [h1]
  · by_cases h2 : (trim inp.taskInput).length > 100
    · simp [h1, h2]
    · simp only [h1, h2, if_false] at h ⊢
      cases hd : inp.datetimeToggle
      · simp [hd] at h
      · simp only [hd, if_true] at h ⊢
        cases hdate : inp.taskDate <;> cases htime : inp.taskTime <;>
          simp only [hdate, htime] at h ⊢ <;> try simp
        split_ifs at h ⊢ with h3
        · simp
        · simp at h

/-- C1, the code at the failing inputs: on a store with no task and counter 1, a valid text
with scheduling enabled and no date or time is rejected (`selectBoth`) and leaves the
counter at 2; so does a valid text scheduled for 1970-01-01 00:00 when the clock shows one
minute past that moment (`inThePast`).  The task list is unchanged in both. -/
theorem addTask_schedule_rejected_counter :
    addTask ⟨[], Filter.all, 1⟩ ⟨[120], true, none, none, false⟩ 0 0 (Zone.fixed 0) =
      (⟨[], Filter.all, 2⟩, Message.selectBoth) ∧
    addTask ⟨[], Filter.all, 1⟩ ⟨[120], true, some ⟨1970, 1, 1⟩, some ⟨0, 0⟩, true⟩
        60000 60000 (Zone.fixed 0) =
      (⟨[], Filter.all, 2⟩, Message.inThePast) := by
  constructor <;> decide

/-! ## Clearing everything (C3) -/

/-- C3 fails on an empty list: start with empty storage, add `'x'` (id 1), delete it; the
list is empty and the counter is 2.  `clearAll` with the confirmation accepted then only
reports that there is nothing to clear, the counter stays 2, and the next `'x'` gets id 2. -/
theorem clearAll_empty_keeps_counter :
    (run (Zone.fixed 0) (TodoApp.constructor ⟨SavedTasks.missing, none⟩)
        [Op.add ⟨[120], false, none, none, false⟩ 0 0, Op.delete 1]) = ⟨[], Filter.all, 2⟩ ∧
    clearAll ⟨[], Filter.all, 2⟩ true = (⟨[], Filter.all, 2⟩, some Message.noTasksToClear) ∧
    (clearAll ⟨[], Filter.all, 2⟩ true).1.taskIdCounter ≠ 1 ∧
    issued (Zone.fixed 0) (clearAll ⟨[], Filter.all, 2⟩ true).1
      (Op.add ⟨[120], false, none, none, false⟩ 0 0) = some 2 := by
  decide

/-- C3 as amended: on a store whose task list is not empty (any counter), `clearAll` with
the confirmation accepted leaves an empty list and the counter 1, so that the task of a
following successful `addTask` has id 1, and adding `'x'` without a schedule is such a
success.  On an empty task list `clearAll` reports that there is nothing to clear and
changes nothing. -/
theorem clearAll_resets (app : TodoApp) (h : app.tasks ≠ []) :
    (clearAll app true).1.tasks = [] ∧
    (clearAll app true).1.taskIdCounter = 1 ∧
    (clearAll app true).2 = some Message.allCleared ∧
    (∀ inp created now zone t,
      addedTask (addTask (clearAll app true).1 inp created now zone) = some t → t.id = 1) ∧
    (∀ created now zone, ∃ t, addedTask (addTask (clearAll app true).1
        ⟨[120], false, none, none, false⟩ created now zone) = some t ∧
      t.id = 1 ∧ t.text = [120]) ∧
    (∀ (empty : TodoApp) (confirm : Bool), empty.tasks = [] →
      clearAll empty confirm = (empty, some Message.noTasksToClear)) := by
  have hlen : app.tasks.length ≠ 0 := by
    intro h0
    exact h (List.length_eq_zero.mp h0)
  have hc : clearAll app true =
      ({ app with tasks := [], taskIdCounter := 1 }, some Message.allCleared) := by
    simp [clearAll, hlen]
  rw [hc]
  refine ⟨rfl, rfl, rfl, ?_, ?_, ?_⟩
  · intro inp created now zone t ht
    unfold addedTask at ht
    split_ifs at ht with hmsg
    obtain ⟨u, hu, hid, -⟩ := addTask_added _ inp created now zone hmsg
    rw [hu] at ht
    simp only [List.head?_cons, Option.some.injEq] at ht
    rw [← ht, hid]
  · intro created now zone
    have hx := addTask_unscheduled_eq
      { app with tasks := [], taskIdCounter := 1 } ⟨[120], false, none, none, false⟩
      created now zone rfl
    have ht : trim [120] = [120] := by decide
    simp only [ht] at hx
    have hx2 : addTask { app with tasks := [], taskIdCounter := 1 }
        ⟨[120], false, none, none, false⟩ created now zone =
        (⟨[⟨1, [120], false, created, none, none, none, none⟩], app.currentFilter,
          jsAdd 1 1⟩, Message.taskAdded) := by
      rw [hx]
      simp
    exact ⟨⟨1, [120], false, created, none, none, none, none⟩,
      by simp only [hx2, addedTask]; simp, rfl, rfl⟩
  · intro empty confirm he
    simp [clearAll, he]

/-- C3 as amended, at a store with one task and counter 9. -/
theorem clearAll_resets_witness :
    (⟨[⟨8, [97], false, 0, none, none, none, none⟩], Filter.all, 9⟩ : TodoApp).tasks ≠ [] ∧
    (clearAll ⟨[⟨8, [97], false, 0, none, none, none, none⟩], Filter.all, 9⟩ true).1.taskIdCounter
      = 1 :=
  ⟨by decide,
    (clearAll_resets ⟨[⟨8, [97], false, 0, none, none, none, none⟩], Filter.all, 9⟩
      (by decide)).2.1⟩

/-! ## The id counter at start-up (C4) -/

/-- Folding `max` over a list: an upper bound of the start value and of the list, and one
of them. -/
theorem foldl_max_spec (l : List Int) (a : Int) :
    a ≤ l.foldl max a ∧ (∀ x ∈ l, x ≤ l.foldl max a) ∧
    (l.foldl max a = a ∨ l.foldl max a ∈ l) := by
  induction l generalizing a with
  | nil => simp
  | cons b l ih =>
    obtain ⟨h1, h2, h3⟩ := ih (max a b)
    simp only [List.foldl_cons, List.mem_cons, forall_eq_or_imp]
    refine ⟨le_trans (le_max_left a b) h1, ⟨le_trans (le_max_right a b) h1, h2⟩, ?_⟩
    rcases h3 with h3 | h3
    · rw [h3]
      rcases max_choice a b with hm | hm
      · left; exact hm
      · right; left; exact hm
    · right; right; exact h3

/-- On a list of safe-integer ids that is not empty, `getNextId` is one more than an id of
the list and above every id of the list. -/
theorem getNextId_safe (tasks : List Task) (h : tasks ≠ [])
    (hsafe : ∀ t ∈ tasks, isSafeInteger t.id = true) :
    (∃ t ∈ tasks, getNextId tasks = t.id + 1) ∧ (∀ t ∈ tasks, t.id < getNextId tasks) := by
  cases tasks with
  | nil => exact absurd rfl h
  | cons u us =>
    obtain ⟨h1, h2, h3⟩ := foldl_max_spec (us.map Task.id) u.id
    have hm : ∃ t ∈ u :: us, (us.map Task.id).foldl max u.id = t.id := by
      rcases h3 with h3 | h3
      · exact ⟨u, List.mem_cons_self _ _, h3⟩
      · obtain ⟨t, ht, hid⟩ := List.mem_map.mp h3
        exact ⟨t, List.mem_cons_of_mem _ ht, hid.symm⟩
    obtain ⟨m, hmem, hmax⟩ := hm
    have hs := hsafe m hmem
    simp only [isSafeInteger, Bool.and_eq_true, decide_eq_true_eq] at hs
    have hnext : getNextId (u :: us) = m.id + 1 := by
      simp only [getNextId, hmax]
      exact jsAdd_one _ (by omega) (by omega)
    refine ⟨⟨m, hmem, hnext⟩, ?_⟩
    intro t ht
    rw [hnext, ← hmax]
    rcases List.mem_cons.mp ht with rfl | ht
    · omega
    · have := h2 t.id (List.mem_map_of_mem Task.id ht)
      omega

/-- On safe-integer ids the value of `getNextId` is above every id of the list and lies
from `-2 ^ 53 + 2` to `2 ^ 53`. -/
theorem getNextId_bounds (tasks : List Task)
    (hsafe : ∀ t ∈ tasks, isSafeInteger t.id = true) :
    (∀ t ∈ tasks, t.id < getNextId tasks) ∧
    -9007199254740990 ≤ getNextId tasks ∧ getNextId tasks ≤ 9007199254740992 := by
  by_cases h : tasks = []
  · subst h
    simp [getNextId]
  · obtain ⟨⟨m, hmem, hnext⟩, hgt⟩ := getNextId_safe tasks h hsafe
    have hs := hsafe m hmem
    simp only [isSafeInteger, Bool.and_eq_true, decide_eq_true_eq] at hs
    exact ⟨hgt, by omega, by omega⟩

/-- C4 fails for an id outside the safe integers: with one stored task of id `2 ^ 53` the
counter after start-up is `2 ^ 53`, which is neither above that id nor that id plus 1, and
the next task added gets the id `2 ^ 53`, already in use. -/
theorem constructor_counter_counterexample :
    (TodoApp.constructor
      ⟨SavedTasks.parsed [⟨9007199254740992, [97], false, 0, none, none, none, none⟩],
        some 1⟩).taskIdCounter = 9007199254740992 ∧
    (TodoApp.constructor
      ⟨SavedTasks.parsed [⟨9007199254740992, [97], false, 0, none, none, none, none⟩],
        some 1⟩).taskIdCounter ≠ 9007199254740992 + 1 ∧
    ¬ (∀ t ∈ [(⟨9007199254740992, [97], false, 0, none, none, none, none⟩ : Task)],
      t.id < (TodoApp.constructor
        ⟨SavedTasks.parsed [⟨9007199254740992, [97], false, 0, none, none, none, none⟩],
          some 1⟩).taskIdCounter) ∧
    issued (Zone.fixed 0)
      (TodoApp.constructor
        ⟨SavedTasks.parsed [⟨9007199254740992, [97], false, 0, none, none, none, none⟩],
          some 1⟩)
      (Op.add ⟨[120], false, none, none, false⟩ 0 0) = some 9007199254740992 := by
  decide

/-- C4 as amended: when the ids of the persisted tasks are safe integers, whatever the
persisted counter is (stale, missing or correct), after start-up the task list is the
persisted one and the id counter is 1 when that list is empty and `max(ids) + 1` otherwise
(above every id of the list and one more than one of them); a missing or unreadable task
list gives the empty list and counter 1.  With tasks of ids 3, 7, 2 and the persisted
counter 1, the next task added gets id 8. -/
theorem constructor_counter (ts : List Task) (c : Option Int)
    (hsafe : ∀ t ∈ ts, isSafeInteger t.id = true) :
    (TodoApp.constructor ⟨SavedTasks.parsed ts, c⟩).tasks = ts ∧
    (ts = [] → (TodoApp.constructor ⟨SavedTasks.parsed ts, c⟩).taskIdCounter = 1) ∧
    (∀ t ∈ ts, t.id < (TodoApp.constructor ⟨SavedTasks.parsed ts, c⟩).taskIdCounter) ∧
    (ts ≠ [] → ∃ t ∈ ts,
      (TodoApp.constructor ⟨SavedTasks.parsed ts, c⟩).taskIdCounter = t.id + 1) ∧
    (TodoApp.constructor ⟨SavedTasks.parsed ts, c⟩).taskIdCounter =
      (TodoApp.constructor ⟨SavedTasks.parsed ts, none⟩).taskIdCounter ∧
    TodoApp.constructor ⟨SavedTasks.missing, c⟩ = ⟨[], Filter.all, 1⟩ ∧
    TodoApp.constructor ⟨SavedTasks.corrupt, c⟩ = ⟨[], Filter.all, 1⟩ ∧
    issued (Zone.fixed 0)
      (TodoApp.constructor
        ⟨SavedTasks.parsed
          [⟨3, [97], false, 0, none, none, none, none⟩,
           ⟨7, [98], true, 0, none, none, none, none⟩,
           ⟨2, [99], false, 0, none, none, none, none⟩], some 1⟩)
      (Op.add ⟨[120], false, none, none, false⟩ 0 0) = some 8 := by
  refine ⟨rfl, ?_, ?_, ?_, rfl, rfl, rfl, by decide⟩
  · intro h
    subst h
    rfl
  · exact (getNextId_bounds ts hsafe).1
  · intro h
    exact (getNextId_safe ts h hsafe).1

/-- C4 as amended, at the stored ids 3, 7, 2 with the stale counter 1: the counter after
start-up is 8. -/
theorem constructor_counter_witness :
    (∀ t ∈ [(⟨3, [97], false, 0, none, none, none, none⟩ : Task),
        ⟨7, [98], true, 0, none, none, none, none⟩,
        ⟨2, [99], false, 0, none, none, none, none⟩], isSafeInteger t.id = true) ∧
    ∃ t ∈ [(⟨3, [97], false, 0, none, none, none, none⟩ : Task),
        ⟨7, [98], true, 0, none, none, none, none⟩,
        ⟨2, [99], false, 0, none, none, none, none⟩],
      (TodoApp.constructor ⟨SavedTasks.parsed
        [⟨3, [97], false, 0, none, none, none, none⟩,
         ⟨7, [98], true, 0, none, none, none, none⟩,
         ⟨2, [99], false, 0, none, none, none, none⟩], some 1⟩).taskIdCounter = t.id + 1 :=
  ⟨by decide,
    (constructor_counter
      [⟨3, [97], false, 0, none, none, none, none⟩,
       ⟨7, [98], true, 0, none, none, none, none⟩,
       ⟨2, [99], false, 0, none, none, none, none⟩] (some 1) (by decide)).2.2.2.1
      (by decide)⟩

/-! ## Ids issued during a session (C2) -/

/-- Every task after `toggleFirst` carries the id of a task before it. -/
theorem toggleFirst_id (id : Int) (l : List Task) :
    ∀ t ∈ toggleFirst id l, ∃ u ∈ l, t.id = u.id := by
  induction l with
  | nil => simp [toggleFirst]
  | cons a l ih =>
    intro t ht
    unfold toggleFirst at ht
    split_ifs at ht
    · rcases List.mem_cons.mp ht with rfl | ht
      · exact ⟨a, List.mem_cons_self _ _, rfl⟩
      · exact ⟨t, List.mem_cons_of_mem _ ht, rfl⟩
    · rcases List.mem_cons.mp ht with rfl | ht
      · exact ⟨t, List.mem_cons_self _ _, rfl⟩
      · obtain ⟨u, hu, h⟩ := ih t ht
        exact ⟨u, List.mem_cons_of_mem _ hu, h⟩

/-- Every task after an alarm scan is a task from before it, or such a task with
`alarmTriggered` set. -/
theorem scanAlarms_mem (d : Option CalDate) (c : ClockTime) (ok : Bool) (i : Nat)
    (l : List Task) :
    ∀ t ∈ (scanAlarms d c ok i l).1,
      ∃ u ∈ l, t = u ∨ t = { u with alarmTriggered := some true } := by
  induction l generalizing i with
  | nil => simp [scanAlarms]
  | cons a l ih =>
    intro t ht
    unfold scanAlarms at ht
    simp only [] at ht
    split_ifs at ht
    · rcases List.mem_cons.mp ht with rfl | ht
      · exact ⟨a, List.mem_cons_self _ _, Or.inr rfl⟩
      · obtain ⟨u, hu, h⟩ := ih (i + 1) t ht
        exact ⟨u, List.mem_cons_of_mem _ hu, h⟩
    · exact ⟨t, ht, Or.inl rfl⟩
    · rcases List.mem_cons.mp ht with rfl | ht
      · exact ⟨t, List.mem_cons_self _ _, Or.inl rfl⟩
      · obtain ⟨u, hu, h⟩ := ih (i + 1) t ht
        exact ⟨u, List.mem_cons_of_mem _ hu, h⟩

/-- While the counter is from `-2 ^ 53` to below `2 ^ 53`, `addTask` does not lower it and
raises it by at most 1, and the list grows by at most the new task, whose id is the old
counter. -/
theorem addTask_counter (app : TodoApp) (inp : FormInput) (created now : Int) (zone : Zone)
    (hlo : -9007199254740992 ≤ app.taskIdCounter)
    (hhi : app.taskIdCounter < 9007199254740992) :
    app.taskIdCounter ≤ (addTask app inp created now zone).1.taskIdCounter ∧
    (addTask app inp created now zone).1.taskIdCounter ≤ app.taskIdCounter + 1 ∧
    (∀ t ∈ (addTask app inp created now zone).1.tasks, t ∈ app.tasks ∨
      (t.id = app.taskIdCounter ∧
        (addTask app inp created now zone).1.taskIdCounter = app.taskIdCounter + 1)) := by
  have hinc := jsAdd_one app.taskIdCounter hlo hhi
  by_cases h : (addTask app inp created now zone).2 = Message.taskAdded
  · obtain ⟨u, hu, hid, -⟩ := addTask_added app inp created now zone h
    rw [hu]
    simp only [hinc]
    refine ⟨by omega, by omega, ?_⟩
    intro t ht
    rcases List.mem_cons.mp ht with rfl | ht
    · right; exact ⟨hid, trivial⟩
    · left; exact ht
  · obtain ⟨ht, -, hc⟩ := addTask_failure app inp created now zone h
    rw [ht]
    refine ⟨?_, ?_, fun t ht => Or.inl ht⟩
    · rcases hc with ⟨-, hc⟩ | ⟨-, hc⟩ <;> omega
    · rcases hc with ⟨-, hc⟩ | ⟨-, hc⟩ <;> omega

/-- While the counter is from `-2 ^ 53` to below `2 ^ 53`, one event keeps every id of the
store below the counter, does not lower the counter and raises it by at most 1. -/
theorem step_inv (zone : Zone) (app : TodoApp) (op : Op)
    (h : ∀ t ∈ app.tasks, t.id < app.taskIdCounter)
    (hlo : -9007199254740992 ≤ app.taskIdCounter)
    (hhi : app.taskIdCounter < 9007199254740992) :
    (∀ t ∈ (step zone app op).tasks, t.id < (step zone app op).taskIdCounter) ∧
    app.taskIdCounter ≤ (step zone app op).taskIdCounter ∧
    (step zone app op).taskIdCounter ≤ app.taskIdCounter + 1 := by
  cases op with
  | add inp created now =>
    obtain ⟨h1, h2, h3⟩ := addTask_counter app inp created now zone hlo hhi
    refine ⟨?_, h1, h2⟩
    intro t ht
    rcases h3 t ht with h4 | ⟨h4, h5⟩
    · exact lt_of_lt_of_le (h t h4) h1
    · simp only [step]
      omega
  | toggle id =>
    refine ⟨?_, le_refl _, by simp [step, toggleTask]⟩
    intro t ht
    obtain ⟨u, hu, hid⟩ := toggleFirst_id id app.tasks t ht
    rw [hid]
    exact h u hu
  | delete id =>
    refine ⟨?_, ?_, ?_⟩
    · intro t ht
      simp only [step, deleteTask] at ht ⊢
      split_ifs at ht ⊢
      · exact h t (List.mem_of_mem_filter ht)
      · exact h t ht
    · simp only [step, deleteTask]
      split_ifs <;> exact le_refl _
    · simp only [step, deleteTask]
      split_ifs <;> simp
  | clearCompleted =>
    refine ⟨?_, le_refl _, by simp [step, clearCompleted]⟩
    intro t ht
    exact h t (List.mem_of_mem_filter ht)
  | setFilter f => exact ⟨h, le_refl _, by simp [step, setFilter]⟩
  | tick now ok =>
    refine ⟨?_, le_refl _, by simp [step, checkAlarms]⟩
    intro t ht
    obtain ⟨u, hu, hid⟩ := scanAlarms_mem _ _ ok 0 app.tasks t ht
    have hlt := h u hu
    rcases hid with rfl | rfl
    · exact hlt
    · exact hlt

/-- An id is issued only by a successful `addTask`: it is the counter before the event,
and the new task is first in the list. -/
theorem issued_eq (zone : Zone) (app : TodoApp) (op : Op) (i : Int)
    (h : issued zone app op = some i) :
    i = app.taskIdCounter ∧
    (step zone app op).taskIdCounter = jsAdd app.taskIdCounter 1 ∧
    ∃ t, (step zone app op).tasks = t :: app.tasks ∧ t.id = i := by
  cases op with
  | add inp created now =>
    simp only [issued, addedTask] at h
    split_ifs at h with hmsg
    · obtain ⟨u, hu, hid, -⟩ := addTask_added app inp created now zone hmsg
      rw [hu] at h
      simp only [List.head?_cons, Option.map_some', Option.some.injEq] at h
      simp only [step, hu]
      exact ⟨by omega, trivial, u, rfl, h⟩
    · simp at h
  | toggle id => simp [issued] at h
  | delete id => simp [issued] at h
  | clearCompleted => simp [issued] at h
  | setFilter f => simp [issued] at h
  | tick now ok => simp [issued] at h

theorem run_append (zone : Zone) (app : TodoApp) (pre post : List Op) :
    run zone app (pre ++ post) = run zone (run zone app pre) post := by
  simp [run, List.foldl_append]

/-- When the counter is below `2 ^ 53` before every event of a sequence, it is so before
every event of a first part of it, and of the rest run from the state after that part. -/
theorem below_split (zone : Zone) (app : TodoApp) (a b : List Op)
    (hb : ∀ k < (a ++ b).length,
      (run zone app ((a ++ b).take k)).taskIdCounter < 9007199254740992) :
    (∀ k < a.length, (run zone app (a.take k)).taskIdCounter < 9007199254740992) ∧
    (∀ k < b.length,
      (run zone (run zone app a) (b.take k)).taskIdCounter < 9007199254740992) := by
  constructor
  · intro k hk
    have h := hb k (by simp only [List.length_append]; omega)
    rw [List.take_append_of_le_length (le_of_lt hk)] at h
    exact h
  · intro k hk
    have h := hb (a.length + k) (by simp only [List.length_append]; omega)
    rw [List.take_append, run_append] at h
    exact h

/-- When the counter is at least `-2 ^ 53` and below `2 ^ 53` before every event, a
sequence of events keeps every id of the store below the counter and does not lower the
counter. -/
theorem run_inv (zone : Zone) (ops : List Op) (app : TodoApp)
    (h : ∀ t ∈ app.tasks, t.id < app.taskIdCounter)
    (hlo : -9007199254740992 ≤ app.taskIdCounter)
    (hb : ∀ k < ops.length,
      (run zone app (ops.take k)).taskIdCounter < 9007199254740992) :
    (∀ t ∈ (run zone app ops).tasks, t.id < (run zone app ops).taskIdCounter) ∧
    app.taskIdCounter ≤ (run zone app ops).taskIdCounter := by
  induction ops generalizing app with
  | nil => exact ⟨h, le_refl _⟩
  | cons op ops ih =>
    have hhi : app.taskIdCounter < 9007199254740992 := hb 0 (by simp)
    obtain ⟨h1, h2, -⟩ := step_inv zone app op h hlo hhi
    have hb2 := (below_split zone app [op] ops hb).2
    obtain ⟨h4, h5⟩ := ih (step zone app op) h1 (by omega) hb2
    exact ⟨h4, le_trans h2 h5⟩

/-- When the counter is at least `-2 ^ 53` and below `2 ^ 53` before every event, the ids
issued during a sequence of events are at least the counter at its start and strictly
increasing. -/
theorem issuedIds_increasing (zone : Zone) (ops : List Op) (app : TodoApp)
    (h : ∀ t ∈ app.tasks, t.id < app.taskIdCounter)
    (hlo : -9007199254740992 ≤ app.taskIdCounter)
    (hb : ∀ k < ops.length,
      (run zone app (ops.take k)).taskIdCounter < 9007199254740992) :
    (∀ i ∈ issuedIds zone app ops, app.taskIdCounter ≤ i) ∧
    (issuedIds zone app ops).Pairwise (fun a b => a < b) := by
  induction ops generalizing app with
  | nil => simp [issuedIds]
  | cons op ops ih =>
    have hhi : app.taskIdCounter < 9007199254740992 := hb 0 (by simp)
    obtain ⟨h1, h2, hle⟩ := step_inv zone app op h hlo hhi
    have hb2 := (below_split zone app [op] ops hb).2
    obtain ⟨h3, h4⟩ := ih (step zone app op) h1 (by omega) hb2
    simp only [issuedIds]
    cases hi : issued zone app op with
    | none =>
      simp only [Option.toList_none, List.nil_append]
      exact ⟨fun i hmem => le_trans h2 (h3 i hmem), h4⟩
    | some j =>
      obtain ⟨hj, hj2, -⟩ := issued_eq zone app op j hi
      rw [jsAdd_one _ hlo hhi] at hj2
      simp only [Option.toList_some, List.singleton_append, List.mem_cons, forall_eq_or_imp,
        List.pairwise_cons]
      refine ⟨⟨by omega, fun i hmem => le_trans h2 (h3 i hmem)⟩, ?_, h4⟩
      intro i hmem
      have := h3 i hmem
      omega

/-- C2 fails once the counter reaches `2 ^ 53`: with one stored task of id `2 ^ 53 - 1` the
counter after start-up is `2 ^ 53`, and two tasks added one after the other both get the id
`2 ^ 53`; the ids issued are not strictly increasing, and the second is the id of a task
already in the store. -/
theorem issued_ids_fresh_counterexample :
    issuedIds (Zone.fixed 0)
      (TodoApp.constructor
        ⟨SavedTasks.parsed [⟨9007199254740991, [97], false, 0, none, none, none, none⟩],
          some 1⟩)
      [Op.add ⟨[120], false, none, none, false⟩ 0 0,
       Op.add ⟨[121], false, none, none, false⟩ 0 0] =
      [9007199254740992, 9007199254740992] ∧
    ¬ ([9007199254740992, 9007199254740992] : List Int).Pairwise (fun a b => a < b) ∧
    ((run (Zone.fixed 0)
      (TodoApp.constructor
        ⟨SavedTasks.parsed [⟨9007199254740991, [97], false, 0, none, none, none, none⟩],
          some 1⟩)
      [Op.add ⟨[120], false, none, none, false⟩ 0 0]).tasks.map Task.id) =
      [9007199254740992, 9007199254740991] := by
  decide

/-- C2 as amended: in a session that starts from a loaded store whose ids are safe
integers, and in which the counter is below `2 ^ 53` before every event, whatever the
events (adds that succeed or fail, toggles, deletes, `clearCompleted`, filter changes,
alarm ticks), the ids given to new tasks are strictly increasing, and an id given to a new
task is greater than, so different from, the id of every task that was in the store at any
earlier point of the session, deleted since or not. -/
theorem issued_ids_fresh (st : Storage) (zone : Zone) (ops : List Op)
    (hsafe : ∀ t ∈ (TodoApp.constructor st).tasks, isSafeInteger t.id = true)
    (hbound : ∀ k < ops.length,
      (run zone (TodoApp.constructor st) (ops.take k)).taskIdCounter < 9007199254740992) :
    (issuedIds zone (TodoApp.constructor st) ops).Pairwise (fun a b => a < b) ∧
    (∀ pre op post i, ops = pre ++ op :: post →
      issued zone (run zone (TodoApp.constructor st) pre) op = some i →
      (∃ t, (run zone (TodoApp.constructor st) (pre ++ [op])).tasks =
          t :: (run zone (TodoApp.constructor st) pre).tasks ∧ t.id = i) ∧
      (∀ earlier later, pre = earlier ++ later →
        ∀ t ∈ (run zone (TodoApp.constructor st) earlier).tasks, t.id < i ∧ t.id ≠ i)) := by
  obtain ⟨h0, hlo, -⟩ := getNextId_bounds (TodoApp.constructor st).tasks hsafe
  have hlo2 : -9007199254740992 ≤ (TodoApp.constructor st).taskIdCounter := by
    have : (TodoApp.constructor st).taskIdCounter =
        getNextId (TodoApp.constructor st).tasks := rfl
    omega
  have h0c : ∀ t ∈ (TodoApp.constructor st).tasks,
      t.id < (TodoApp.constructor st).taskIdCounter := h0
  refine ⟨(issuedIds_increasing zone ops _ h0c hlo2 hbound).2, ?_⟩
  intro pre op post i hops hi
  obtain ⟨hi1, -, t, ht, hid⟩ := issued_eq zone _ op i hi
  refine ⟨⟨t, ?_, hid⟩, ?_⟩
  · rw [run_append]
    exact ht
  · intro earlier later hpre u hu
    rw [hops] at hbound
    obtain ⟨hbpre, -⟩ := below_split zone _ pre (op :: post) hbound
    rw [hpre] at hbpre
    obtain ⟨hbe, hbl⟩ := below_split zone _ earlier later hbpre
    obtain ⟨h1, h1lo⟩ := run_inv zone earlier _ h0c hlo2 hbe
    obtain ⟨-, h2⟩ := run_inv zone later _ h1 (by omega) hbl
    rw [← run_append, ← hpre] at h2
    have := h1 u hu
    constructor <;> omega

/-- C2 as amended, on a concrete session: tasks with ids 3 and 1 are loaded; a task is
added (id 4), deleted, a task with an empty text is refused, a scheduled task without date
is refused, and two more tasks are added: the ids issued are 4, 6 and 7. -/
theorem issued_ids_fresh_witness :
    issuedIds (Zone.fixed 0)
      (TodoApp.constructor
        ⟨SavedTasks.parsed [⟨3, [97], false, 0, none, none, none, none⟩,
          ⟨1, [98], false, 0, none, none, none, none⟩], some 2⟩)
      [Op.add ⟨[120], false, none, none, false⟩ 0 0, Op.delete 4,
       Op.add ⟨[32], false, none, none, false⟩ 0 0,
       Op.add ⟨[121], true, none, none, false⟩ 0 0,
       Op.add ⟨[121], false, none, none, false⟩ 0 0,
       Op.clearCompleted,
       Op.add ⟨[122], false, none, none, false⟩ 0 0] = [4, 6, 7] ∧
    ([4, 6, 7] : List Int).Pairwise (fun a b => a < b) := by
  have h := (issued_ids_fresh
    ⟨SavedTasks.parsed [⟨3, [97], false, 0, none, none, none, none⟩,
      ⟨1, [98], false, 0, none, none, none, none⟩], some 2⟩ (Zone.fixed 0)
    [Op.add ⟨[120], false, none, none, false⟩ 0 0, Op.delete 4,
     Op.add ⟨[32], false, none, none, false⟩ 0 0,
     Op.add ⟨[121], true, none, none, false⟩ 0 0,
     Op.add ⟨[121], false, none, none, false⟩ 0 0,
     Op.clearCompleted,
     Op.add ⟨[122], false, none, none, false⟩ 0 0] (by decide) (by decide)).1
  have he : issuedIds (Zone.fixed 0)
      (TodoApp.constructor
        ⟨SavedTasks.parsed [⟨3, [97], false, 0, none, none, none, none⟩,
          ⟨1, [98], false, 0, none, none, none, none⟩], some 2⟩)
      [Op.add ⟨[120], false, none, none, false⟩ 0 0, Op.delete 4,
       Op.add ⟨[32], false, none, none, false⟩ 0 0,
       Op.add ⟨[121], true, none, none, false⟩ 0 0,
       Op.add ⟨[121], false, none, none, false⟩ 0 0,
       Op.clearCompleted,
       Op.add ⟨[122], false, none, none, false⟩ 0 0] = [4, 6, 7] := by decide
  rw [he] at h
  exact ⟨he, h⟩

/-! ## Alarm scan: firing at most once (C5) -/

/-- The task list after a scan in which `triggerAlarm` returns: a due task gets
`alarmTriggered = true`, the others are as before. -/
theorem scanAlarms_tasks (d : Option CalDate) (c : ClockTime) (i : Nat) (l : List Task) :
    (scanAlarms d c true i l).1 =
      l.map (fun t => if alarmDue t d c then { t with alarmTriggered := some true } else t) := by
  induction l generalizing i with
  | nil => rfl
  | cons a l ih =>
    unfold scanAlarms
    simp only [List.map_cons, if_true]
    split_ifs <;> simp [ih (i + 1)]

/-- The task list after a scan in which `triggerAlarm` throws is the list before it. -/
theorem scanAlarms_tasks_throw (d : Option CalDate) (c : ClockTime) (i : Nat)
    (l : List Task) : (scanAlarms d c false i l).1 = l := by
  induction l generalizing i with
  | nil => rfl
  | cons a l ih =>
    unfold scanAlarms
    simp only [Bool.false_eq_true, if_false]
    split_ifs <;> simp [ih (i + 1)]

/-- The log of a scan that starts at position `i` names no earlier position. -/
theorem scanAlarms_calls_before (d : Option CalDate) (c : ClockTime) (ok : Bool)
    (i k : Nat) (l : List Task) (h : k < i) : callsFor k (scanAlarms d c ok i l).2 = 0 := by
  induction l generalizing i with
  | nil => rfl
  | cons a l ih =>
    unfold scanAlarms
    simp only []
    have hne : (i == k) = false := by
      simp only [beq_eq_false_iff_ne, ne_eq]
      omega
    split_ifs
    · have := ih (i + 1) (by omega)
      simp only [callsFor, List.filter_cons, hne] at this ⊢
      simpa using this
    · simp [callsFor, List.filter_cons, hne]
    · exact ih (i + 1) (by omega)

/-- The number of `triggerAlarm` calls of a scan for the task at position `j` is at most
one, and none when the task is not due. -/
theorem scanAlarms_calls_le (d : Option CalDate) (c : ClockTime) (ok : Bool) (i j : Nat)
    (l : List Task) :
    callsFor (i + j) (scanAlarms d c ok i l).2 ≤
      match l[j]? with
      | some t => if alarmDue t d c then 1 else 0
      | none => 0 := by
  induction l generalizing i j with
  | nil => simp [scanAlarms, callsFor]
  | cons a l ih =>
    unfold scanAlarms
    simp only []
    cases j with
    | zero =>
      have h0 := scanAlarms_calls_before d c ok (i + 1) i l (by omega)
      simp only [callsFor] at h0
      simp only [Nat.add_zero, List.getElem?_cons_zero]
      split_ifs
      · simp [callsFor, List.filter_cons, h0]
      · simp [callsFor, List.filter_cons]
      · simp only [callsFor]
        omega
    | succ j =>
      have hj := ih (i + 1) j
      have he : i + 1 + j = i + (j + 1) := by omega
      rw [he] at hj
      simp only [List.getElem?_cons_succ]
      have hne : (i == i + (j + 1)) = false := by
        simp only [beq_eq_false_iff_ne, ne_eq]
        omega
      split_ifs
      · have h2 : callsFor (i + (j + 1))
            ((i, a) :: (scanAlarms d c ok (i + 1) l).2) =
            callsFor (i + (j + 1)) (scanAlarms d c ok (i + 1) l).2 := by
          simp [callsFor, List.filter_cons, hne]
        rw [h2]
        exact hj
      · have h2 : callsFor (i + (j + 1)) [(i, a)] = 0 := by
          simp [callsFor, List.filter_cons, hne]
        rw [h2]
        exact Nat.zero_le _
      · exact hj

/-- The number of `triggerAlarm` calls of a scan in which `triggerAlarm` returns, for the
task at position `j`: one when the task is due, none otherwise. -/
theorem scanAlarms_calls (d : Option CalDate) (c : ClockTime) (i j : Nat) (l : List Task) :
    callsFor (i + j) (scanAlarms d c true i l).2 =
      match l[j]? with
      | some t => if alarmDue t d c then 1 else 0
      | none => 0 := by
  induction l generalizing i j with
  | nil => rfl
  | cons a l ih =>
    unfold scanAlarms
    simp only [if_true]
    cases j with
    | zero =>
      have h0 := scanAlarms_calls_before d c true (i + 1) i l (by omega)
      simp only [callsFor] at h0
      simp only [Nat.add_zero, List.getElem?_cons_zero]
      split_ifs
      · simp [callsFor, List.filter_cons, h0]
      · simpa [callsFor] using h0
    | succ j =>
      have hj := ih (i + 1) j
      have he : i + 1 + j = i + (j + 1) := by omega
      rw [he] at hj
      simp only [List.getElem?_cons_succ]
      have hne : (i == i + (j + 1)) = false := by
        simp only [beq_eq_false_iff_ne, ne_eq]
        omega
      split_ifs
      · rw [← hj]
        simp [callsFor, List.filter_cons, hne]
      · exact hj

/-- Calls in two logs add up. -/
theorem callsFor_append (i : Nat) (a b : List (Nat × Task)) :
    callsFor i (a ++ b) = callsFor i a + callsFor i b := by
  simp [callsFor, List.filter_append]

/-- A task whose alarm has fired is never due. -/
theorem alarmDue_triggered (t : Task) (d : Option CalDate) (c : ClockTime)
    (h : t.alarmTriggered = some true) : alarmDue t d c = false := by
  simp [alarmDue, h]

/-- A tick in which `triggerAlarm` returns: the number of calls for position `i`, and the
task at that position afterwards. -/
theorem checkAlarms_at (app : TodoApp) (now : Int) (zone : Zone) (i : Nat) :
    callsFor i (checkAlarms app now zone true).2 =
      (match app.tasks[i]? with
      | some t => if alarmDue t (toISODate now) (toTimeHHMM now zone) then 1 else 0
      | none => 0) ∧
    (checkAlarms app now zone true).1.tasks[i]? =
      (app.tasks[i]?).map (fun t =>
        if alarmDue t (toISODate now) (toTimeHHMM now zone)
        then { t with alarmTriggered := some true } else t) := by
  constructor
  · have h := scanAlarms_calls (toISODate now) (toTimeHHMM now zone) 0 i app.tasks
    simp only [Nat.zero_add] at h
    exact h
  · simp only [checkAlarms, scanAlarms_tasks, List.getElem?_map]

/-- Any tick: at most one call for position `i`, none when the task there is not due; and
a task whose alarm has fired is left as it is. -/
theorem checkAlarms_at_le (app : TodoApp) (now : Int) (zone : Zone) (ok : Bool) (i : Nat) :
    callsFor i (checkAlarms app now zone ok).2 ≤
      (match app.tasks[i]? with
      | some t => if alarmDue t (toISODate now) (toTimeHHMM now zone) then 1 else 0
      | none => 0) ∧
    (∀ u, app.tasks[i]? = some u → u.alarmTriggered = some true →
      (checkAlarms app now zone ok).1.tasks[i]? = some u) := by
  constructor
  · have h := scanAlarms_calls_le (toISODate now) (toTimeHHMM now zone) ok 0 i app.tasks
    simp only [Nat.zero_add] at h
    exact h
  · intro u hu htr
    cases ok with
    | false => simp only [checkAlarms, scanAlarms_tasks_throw, hu]
    | true =>
      simp only [checkAlarms, scanAlarms_tasks, List.getElem?_map, hu, Option.map_some',
        alarmDue_triggered u _ _ htr, Bool.false_eq_true, if_false]

/-- A tick in which `triggerAlarm` returns, followed by any tick, calls `triggerAlarm` at
most once for any position. -/
theorem checkAlarms_twice_le (s : TodoApp) (m1 m2 : Int) (z : Zone) (ok2 : Bool) (k : Nat) :
    callsFor k ((checkAlarms s m1 z true).2 ++
      (checkAlarms (checkAlarms s m1 z true).1 m2 z ok2).2) ≤ 1 := by
  rw [callsFor_append]
  obtain ⟨h1, h2⟩ := checkAlarms_at s m1 z k
  obtain ⟨h3, -⟩ := checkAlarms_at_le (checkAlarms s m1 z true).1 m2 z ok2 k
  cases hk : s.tasks[k]? with
  | none =>
    rw [hk] at h1 h2
    simp only [Option.map_none'] at h2
    rw [h2] at h3
    simp only [] at h1 h3
    omega
  | some u =>
    rw [hk] at h1 h2
    simp only [Option.map_some'] at h2
    rw [h2] at h3
    simp only [] at h1 h3
    by_cases hdue : alarmDue u (toISODate m1) (toTimeHHMM m1 z) = true
    · simp only [hdue, if_true] at h1 h3
      rw [alarmDue_triggered { u with alarmTriggered := some true } _ _ rfl] at h3
      simp only [Bool.false_eq_true, if_false] at h3
      omega
    · have hf : alarmDue u (toISODate m1) (toTimeHHMM m1 z) = false := by
        simpa using hdue
      rw [hf] at h1 h3
      simp only [Bool.false_eq_true, if_false] at h1 h3
      split_ifs at h3 <;> omega

/-- A task that is not marked as triggered after an event was not marked before it, and is
the same task up to its `completed` flag, unless it is the task the event added. -/
theorem step_untriggered (z : Zone) (s : TodoApp) (op : Op) (v : Task)
    (hv : v ∈ (step z s op).tasks) (hn : v.alarmTriggered ≠ some true) :
    (∃ u ∈ s.tasks, u.alarmTriggered ≠ some true ∧
      (v = u ∨ v = { u with completed := !u.completed })) ∨
    (∃ inp created now, op = Op.add inp created now ∧
      addedTask (addTask s inp created now z) = some v) := by
  cases op with
  | add inp created now =>
    by_cases h : (addTask s inp created now z).2 = Message.taskAdded
    · obtain ⟨u, hu, -⟩ := addTask_added s inp created now z h
      simp only [step, hu] at hv
      rcases List.mem_cons.mp hv with rfl | hv
      · right
        exact ⟨inp, created, now, rfl, by simp [addedTask, h, hu]⟩
      · left
        exact ⟨v, hv, hn, Or.inl rfl⟩
    · obtain ⟨ht, -⟩ := addTask_failure s inp created now z h
      simp only [step, ht] at hv
      left
      exact ⟨v, hv, hn, Or.inl rfl⟩
  | toggle id =>
    left
    simp only [step, toggleTask] at hv
    have key : ∀ l : List Task, v ∈ toggleFirst id l →
        ∃ u ∈ l, v = u ∨ v = { u with completed := !u.completed } := by
      intro l
      induction l with
      | nil => simp [toggleFirst]
      | cons a l ih =>
        intro hmem
        unfold toggleFirst at hmem
        split_ifs at hmem
        · rcases List.mem_cons.mp hmem with rfl | hmem
          · exact ⟨a, List.mem_cons_self _ _, Or.inr rfl⟩
          · exact ⟨v, List.mem_cons_of_mem _ hmem, Or.inl rfl⟩
        · rcases List.mem_cons.mp hmem with rfl | hmem
          · exact ⟨v, List.mem_cons_self _ _, Or.inl rfl⟩
          · obtain ⟨u, hu, h⟩ := ih hmem
            exact ⟨u, List.mem_cons_of_mem _ hu, h⟩
    obtain ⟨u, hu, h⟩ := key s.tasks hv
    refine ⟨u, hu, ?_, h⟩
    rcases h with rfl | rfl
    · exact hn
    · exact hn
  | delete id =>
    left
    simp only [step, deleteTask] at hv
    split_ifs at hv
    · exact ⟨v, List.mem_of_mem_filter hv, hn, Or.inl rfl⟩
    · exact ⟨v, hv, hn, Or.inl rfl⟩
  | clearCompleted =>
    left
    exact ⟨v, List.mem_of_mem_filter hv, hn, Or.inl rfl⟩
  | setFilter f =>
    left
    exact ⟨v, hv, hn, Or.inl rfl⟩
  | tick now ok =>
    left
    obtain ⟨u, hu, hf⟩ := scanAlarms_mem _ _ ok 0 s.tasks v hv
    rcases hf with rfl | rfl
    · exact ⟨v, hu, hn, Or.inl rfl⟩
    · exact absurd rfl hn

/-- Where `triggerAlarm` throws, the flag is never set: an armed task due at 1970-01-01
00:05 on a UTC clock gets a call on the tick at 00:05:00 and another on the tick at
00:05:30, and its `alarmTriggered` is still unset after both. -/
theorem checkAlarms_notifier_throws :
    checkAlarms
        ⟨[⟨1, [120], false, 0, some ⟨1970, 1, 1⟩, some ⟨0, 5⟩, some true, none⟩],
          Filter.all, 2⟩ 300000 (Zone.fixed 0) false =
      (⟨[⟨1, [120], false, 0, some ⟨1970, 1, 1⟩, some ⟨0, 5⟩, some true, none⟩],
          Filter.all, 2⟩,
        [(0, ⟨1, [120], false, 0, some ⟨1970, 1, 1⟩, some ⟨0, 5⟩, some true, none⟩)]) ∧
    callsFor 0
      ((checkAlarms
          ⟨[⟨1, [120], false, 0, some ⟨1970, 1, 1⟩, some ⟨0, 5⟩, some true, none⟩],
            Filter.all, 2⟩ 300000 (Zone.fixed 0) false).2 ++
        (checkAlarms (checkAlarms
          ⟨[⟨1, [120], false, 0, some ⟨1970, 1, 1⟩, some ⟨0, 5⟩, some true, none⟩],
            Filter.all, 2⟩ 300000 (Zone.fixed 0) false).1 330000 (Zone.fixed 0) false).2)
      = 2 := by
  decide

/-- C5 fails for a task that is not armed: on a UTC clock the ticks at 00:05:00 and
00:05:30 of 1970-01-01 both match the due date and minute of the three tasks of
`unarmedStore`, and `triggerAlarm` returns whenever called, yet it is called for none of
them, on neither tick (not once in total), and the `alarmTriggered` of the first and of the
second is not true after the first tick. -/
theorem checkAlarms_unarmed_never_fires :
    toISODate 300000 = some ⟨1970, 1, 1⟩ ∧ toLocalDate 300000 (Zone.fixed 0) = ⟨1970, 1, 1⟩ ∧
    toTimeHHMM 300000 (Zone.fixed 0) = ⟨0, 5⟩ ∧
    toISODate 330000 = some ⟨1970, 1, 1⟩ ∧ toLocalDate 330000 (Zone.fixed 0) = ⟨1970, 1, 1⟩ ∧
    toTimeHHMM 330000 (Zone.fixed 0) = ⟨0, 5⟩ ∧
    (∀ t ∈ unarmedStore.tasks,
      t.dueDate = some ⟨1970, 1, 1⟩ ∧ t.dueTime = some ⟨0, 5⟩) ∧
    (checkAlarms unarmedStore 300000 (Zone.fixed 0) true).2 ++
      (checkAlarms (checkAlarms unarmedStore 300000 (Zone.fixed 0) true).1 330000
        (Zone.fixed 0) true).2 = [] ∧
    callsFor 0 ((checkAlarms unarmedStore 300000 (Zone.fixed 0) true).2 ++
      (checkAlarms (checkAlarms unarmedStore 300000 (Zone.fixed 0) true).1 330000
        (Zone.fixed 0) true).2) ≠ 1 ∧
    callsFor 1 ((checkAlarms unarmedStore 300000 (Zone.fixed 0) true).2 ++
      (checkAlarms (checkAlarms unarmedStore 300000 (Zone.fixed 0) true).1 330000
        (Zone.fixed 0) true).2) ≠ 1 ∧
    callsFor 2 ((checkAlarms unarmedStore 300000 (Zone.fixed 0) true).2 ++
      (checkAlarms (checkAlarms unarmedStore 300000 (Zone.fixed 0) true).1 330000
        (Zone.fixed 0) true).2) ≠ 1 ∧
    ((checkAlarms unarmedStore 300000 (Zone.fixed 0) true).1.tasks[0]?).map
      Task.alarmTriggered ≠ some (some true) ∧
    ((checkAlarms unarmedStore 300000 (Zone.fixed 0) true).1.tasks[1]?).map
      Task.alarmTriggered ≠ some (some true) := by
  decide

/-- C5 as amended: take a task in the list whose alarm is armed (`hasAlarm` true, not
completed, `alarmTriggered` not yet true) and a tick that falls in the task's due minute of
its due date on the local clock, at a moment when the UTC date is that same date, and on
which `triggerAlarm` returns.  That tick, followed by any second tick (one in the same
minute included, whether or not `triggerAlarm` returns on it), calls `triggerAlarm` for the
task exactly once in total, on the first tick, after which its `alarmTriggered` is true.
For every task: such a pair of ticks calls it at most once; once `alarmTriggered` is
true no tick calls it and the tick leaves it as it is; and no event resets the flag (a task
not marked after an event was not marked before, or is the task just added; `clearAll`
only removes tasks). -/
theorem checkAlarms_fires_once (app : TodoApp) (zone : Zone) (now1 now2 : Int) (ok2 : Bool)
    (i : Nat) (t : Task)
    (hi : app.tasks[i]? = some t)
    (ha : t.hasAlarm = some true) (hc : t.completed = false)
    (hn : t.alarmTriggered ≠ some true)
    (hutc : toISODate now1 = some (toLocalDate now1 zone))
    (hd1 : t.dueDate = some (toLocalDate now1 zone))
    (ht1 : t.dueTime = some (toTimeHHMM now1 zone)) :
    callsFor i (checkAlarms app now1 zone true).2 = 1 ∧
    (checkAlarms app now1 zone true).1.tasks[i]? =
      some { t with alarmTriggered := some true } ∧
    callsFor i (checkAlarms (checkAlarms app now1 zone true).1 now2 zone ok2).2 = 0 ∧
    callsFor i ((checkAlarms app now1 zone true).2 ++
      (checkAlarms (checkAlarms app now1 zone true).1 now2 zone ok2).2) = 1 ∧
    (∀ (s : TodoApp) (m1 m2 : Int) (z : Zone) (ok : Bool) (k : Nat),
      callsFor k ((checkAlarms s m1 z true).2 ++
        (checkAlarms (checkAlarms s m1 z true).1 m2 z ok).2) ≤ 1) ∧
    (∀ (s : TodoApp) (m : Int) (z : Zone) (ok : Bool) (k : Nat) (u : Task),
      s.tasks[k]? = some u → u.alarmTriggered = some true →
      callsFor k (checkAlarms s m z ok).2 = 0 ∧
      (checkAlarms s m z ok).1.tasks[k]? = some u) ∧
    (∀ (s : TodoApp) (op : Op) (z : Zone) (v : Task),
      v ∈ (step z s op).tasks → v.alarmTriggered ≠ some true →
      (∃ u ∈ s.tasks, u.alarmTriggered ≠ some true ∧
        (v = u ∨ v = { u with completed := !u.completed })) ∨
      (∃ inp created now, op = Op.add inp created now ∧
        addedTask (addTask s inp created now z) = some v)) ∧
    (∀ (s : TodoApp) (confirm : Bool) (v : Task),
      v ∈ (clearAll s confirm).1.tasks → v ∈ s.tasks) := by
  have hdue1 : alarmDue t (toISODate now1) (toTimeHHMM now1 zone) = true := by
    have hn2 : (t.alarmTriggered == some true) = false := by
      simpa using hn
    simp [alarmDue, ha, hc, hd1, ht1, hn2, hutc]
  obtain ⟨h1, h2⟩ := checkAlarms_at app now1 zone i
  rw [hi] at h1 h2
  simp only [hdue1, if_true, Option.map_some'] at h1 h2
  obtain ⟨h3, -⟩ := checkAlarms_at_le (checkAlarms app now1 zone true).1 now2 zone ok2 i
  rw [h2] at h3
  simp only [alarmDue_triggered { t with alarmTriggered := some true } _ _ rfl,
    Bool.false_eq_true, if_false, Nat.le_zero_eq] at h3
  refine ⟨h1, h2, h3, ?_, checkAlarms_twice_le, ?_, ?_, ?_⟩
  · rw [callsFor_append, h1, h3]
  · intro s m z ok k u hk hu
    obtain ⟨h4, h5⟩ := checkAlarms_at_le s m z ok k
    rw [hk] at h4
    simp only [alarmDue_triggered u _ _ hu, Bool.false_eq_true, if_false,
      Nat.le_zero_eq] at h4
    exact ⟨h4, h5 u hk hu⟩
  · intro s op z v hv hnv
    exact step_untriggered z s op v hv hnv
  · intro s confirm v hv
    unfold clearAll at hv
    split_ifs at hv
    · exact hv
    · simp at hv
    · exact hv

/-- C5 as amended, at a concrete store: one armed task due 1970-01-01 00:05 (UTC clock),
ticks at 00:05:00 and 00:05:30, both in the due minute. -/
theorem checkAlarms_fires_once_witness :
    toISODate 300000 = some (toLocalDate 300000 (Zone.fixed 0)) ∧
    toLocalDate 300000 (Zone.fixed 0) = ⟨1970, 1, 1⟩ ∧
    toTimeHHMM 300000 (Zone.fixed 0) = ⟨0, 5⟩ ∧
    toLocalDate 330000 (Zone.fixed 0) = ⟨1970, 1, 1⟩ ∧
    toTimeHHMM 330000 (Zone.fixed 0) = ⟨0, 5⟩ ∧
    callsFor 0
      ((checkAlarms ⟨[⟨1, [120], false, 0, some ⟨1970, 1, 1⟩, some ⟨0, 5⟩, some true, none⟩],
          Filter.all, 2⟩ 300000 (Zone.fixed 0) true).2 ++
        (checkAlarms (checkAlarms
          ⟨[⟨1, [120], false, 0, some ⟨1970, 1, 1⟩, some ⟨0, 5⟩, some true, none⟩],
            Filter.all, 2⟩ 300000 (Zone.fixed 0) true).1 330000 (Zone.fixed 0) true).2) = 1 :=
  ⟨by decide, by decide, by decide, by decide, by decide,
  (checkAlarms_fires_once
    ⟨[⟨1, [120], false, 0, some ⟨1970, 1, 1⟩, some ⟨0, 5⟩, some true, none⟩], Filter.all, 2⟩
    (Zone.fixed 0) 300000 330000 true 0
    ⟨1, [120], false, 0, some ⟨1970, 1, 1⟩, some ⟨0, 5⟩, some true, none⟩
    (by decide) (by decide) (by decide) (by decide) (by decide) (by decide)
    (by decide)).2.2.2.1⟩

/-! ## Calendar arithmetic -/

/-- The year of the era found by `yearOfEra` begins on or before the day and holds it; it
has 366 days only when the calendar year that ends it is a leap year. -/
theorem yearOfEra_spec (doe : Int) (h0 : 0 ≤ doe) (h1 : doe ≤ 146096) :
    0 ≤ yearOfEra doe ∧ yearOfEra doe ≤ 399 ∧ yearStart (yearOfEra doe) ≤ doe ∧
    doe ≤ yearStart (yearOfEra doe) + 365 ∧
    (doe = yearStart (yearOfEra doe) + 365 →
      (yearOfEra doe + 1) % 4 = 0 ∧ ((yearOfEra doe + 1) % 100 ≠ 0 ∨ yearOfEra doe = 399)) := by
  unfold yearOfEra
  simp only []
  have he : (if doe / 365 ≤ 399 then doe / 365 else 399) ≤ doe / 365 ∧
      0 ≤ (if doe / 365 ≤ 399 then doe / 365 else 399) ∧
      (if doe / 365 ≤ 399 then doe / 365 else 399) ≤ 399 ∧
      ((if doe / 365 ≤ 399 then doe / 365 else 399) = doe / 365 ∨
        (if doe / 365 ≤ 399 then doe / 365 else 399) = 399) := by
    split_ifs <;> omega
  generalize (if doe / 365 ≤ 399 then doe / 365 else 399) = e at *
  split_ifs with h
  · unfold yearStart at *
    omega
  · unfold yearStart at *
    have h4 : (e - 1) / 4 = if e % 4 = 0 then e / 4 - 1 else e / 4 := by
      split_ifs <;> omega
    have h100 : (e - 1) / 100 = if e % 100 = 0 then e / 100 - 1 else e / 100 := by
      split_ifs <;> omega
    rw [h4, h100]
    split_ifs <;> omega

/-- The date computed from a day number has a month from 1 to 12 and a day of that
month. -/
theorem civilFromDays_month (z : Int) :
    1 ≤ (civilFromDays z).month ∧ (civilFromDays z).month ≤ 12 ∧ 1 ≤ (civilFromDays z).day ∧
    (civilFromDays z).day ≤ daysInMonth (civilFromDays z).year (civilFromDays z).month := by
  have hdoe0 : 0 ≤ z + 719468 - (z + 719468) / 146097 * 146097 := by omega
  have hdoe1 : z + 719468 - (z + 719468) / 146097 * 146097 ≤ 146096 := by omega
  obtain ⟨hy0, hy1, hs0, hs1, hleap⟩ := yearOfEra_spec _ hdoe0 hdoe1
  simp only [civilFromDays]
  generalize yearOfEra (z + 719468 - (z + 719468) / 146097 * 146097) = yoe at *
  generalize hera : (z + 719468) / 146097 = era at *
  generalize hdoy : z + 719468 - era * 146097 - yearStart yoe = doy at *
  have hd0 : 0 ≤ doy := by omega
  have hd1 : doy ≤ 365 := by omega
  have hmp0 : 0 ≤ (5 * doy + 2) / 153 := by omega
  have hmp1 : (5 * doy + 2) / 153 ≤ 11 := by omega
  generalize hmp : (5 * doy + 2) / 153 = mp at *
  unfold daysInMonth isLeapYear
  interval_cases mp <;> simp <;> omega

/-- The date computed from a day number has that day number. -/
theorem daysFromCivil_civilFromDays (z : Int) : daysFromCivil (civilFromDays z) = z := by
  have hdoe0 : 0 ≤ z + 719468 - (z + 719468) / 146097 * 146097 := by omega
  have hdoe1 : z + 719468 - (z + 719468) / 146097 * 146097 ≤ 146096 := by omega
  obtain ⟨hy0, hy1, hs0, hs1, hleap⟩ := yearOfEra_spec _ hdoe0 hdoe1
  simp only [civilFromDays, daysFromCivil]
  generalize yearOfEra (z + 719468 - (z + 719468) / 146097 * 146097) = yoe at *
  generalize hera : (z + 719468) / 146097 = era at *
  unfold yearStart at *
  generalize hdoy : z + 719468 - era * 146097 - (365 * yoe + yoe / 4 - yoe / 100) = doy at *
  have hd0 : 0 ≤ doy := by omega
  have hd1 : doy ≤ 365 := by omega
  have hmp0 : 0 ≤ (5 * doy + 2) / 153 := by omega
  have hmp1 : (5 * doy + 2) / 153 ≤ 11 := by omega
  generalize hmp : (5 * doy + 2) / 153 = mp at *
  have hq : (yoe + era * 400) / 400 = era := by omega
  have hq1 : (yoe + era * 400 + 1 - 1) / 400 = era := by omega
  interval_cases mp <;> simp [hq] <;> omega

/-- No month has more than 31 days. -/
theorem daysInMonth_le (y m : Int) : daysInMonth y m ≤ 31 := by
  unfold daysInMonth
  split_ifs <;> omega

/-- Reading back the local date and `'HH:MM'` of a moment gives the start of its minute,
when the zone reads that local time with the offset in force at the moment. -/
theorem parseLocal_local (m : Int) (zone : Zone)
    (hy : 0 ≤ (toLocalDate m zone).year ∧ (toLocalDate m zone).year ≤ 9999)
    (hread : zone.offsetOfLocal (localTime m zone - localTime m zone % 60000) =
      zone.offsetAt m) :
    parseLocal (toLocalDate m zone) (toTimeHHMM m zone) zone = some (m - m % 60000) := by
  obtain ⟨hm1, hm2, hd1, hd2⟩ := civilFromDays_month (localTime m zone / msPerDay)
  have hd3 := daysInMonth_le (civilFromDays (localTime m zone / msPerDay)).year
    (civilFromDays (localTime m zone / msPerDay)).month
  have hvd : (toLocalDate m zone).isValid = true := by
    simp only [CalDate.isValid, toLocalDate, Bool.and_eq_true, decide_eq_true_eq] at hy ⊢
    exact ⟨⟨⟨⟨⟨hy.1, hy.2⟩, hm1⟩, hm2⟩, hd1⟩, le_trans hd2 hd3⟩
  have hvt : (toTimeHHMM m zone).isValid = true := by
    simp only [ClockTime.isValid, toTimeHHMM, Bool.or_eq_true, Bool.and_eq_true,
      decide_eq_true_eq]
    left
    omega
  have hl : daysFromCivil (toLocalDate m zone) * msPerDay +
      ((toTimeHHMM m zone).hour * 60 + (toTimeHHMM m zone).minute) * msPerMinute =
      localTime m zone - localTime m zone % 60000 := by
    simp only [toLocalDate, daysFromCivil_civilFromDays, toTimeHHMM, msPerDay, msPerMinute]
    omega
  simp only [parseLocal, hvd, hvt, Bool.and_self, if_true, hl, hread, Option.some.injEq]
  simp only [localTime, msPerMinute]
  omega

/-! ## Scheduling a task (C10) -/

/-- C10 fails in the hour that the local clock repeats.  In New York at 2024-11-03
06:30:30 UTC (01:30:30 local, daylight saving ended at 06:00 UTC), one minute later the
local clock shows 01:31 of 2024-11-03.  `addTask` with that date and time reads them with
the offset from before the change, as 05:31 UTC, and refuses the task as being in the
past. -/
theorem addTask_scheduled_counterexample :
    toLocalDate (1730615430000 + msPerMinute) Zone.newYorkFall2024 = ⟨2024, 11, 3⟩ ∧
    toTimeHHMM (1730615430000 + msPerMinute) Zone.newYorkFall2024 = ⟨1, 31⟩ ∧
    parseLocal ⟨2024, 11, 3⟩ ⟨1, 31⟩ Zone.newYorkFall2024 = some 1730611860000 ∧
    addTask ⟨[], Filter.all, 1⟩ ⟨[120], true, some ⟨2024, 11, 3⟩, some ⟨1, 31⟩, false⟩
        1730615430000 1730615430000 Zone.newYorkFall2024 =
      (⟨[], Filter.all, 2⟩, Message.inThePast) := by
  decide

/-- C10 as amended: for a valid text, with scheduling enabled and a date and a time given
that the zone reads as the moment `due` (second 0 of the chosen minute), `addTask` is
refused with `inThePast` when `due` is strictly earlier than `now`, and succeeds when it is
not; on success the task carries the date, the time and `hasAlarm` as selected.  A task
added by any `addTask` has both `dueDate` and `dueTime` or neither.  Choosing the local
date and minute shown by the clock one minute after `now` succeeds when the zone reads
that local time with the offset in force at that moment, as a zone with a fixed offset
always does. -/
theorem addTask_scheduled (app : TodoApp) (inp : FormInput) (created now : Int) (zone : Zone)
    (date : CalDate) (time : ClockTime) (due : Int)
    (hne : trim inp.taskInput ≠ []) (hlen : (trim inp.taskInput).length ≤ 100)
    (hd : inp.datetimeToggle = true)
    (hdate : inp.taskDate = some date) (htime : inp.taskTime = some time)
    (hdue : parseLocal date time zone = some due) :
    (due < now → (addTask app inp created now zone).2 = Message.inThePast ∧
      (addTask app inp created now zone).1.tasks = app.tasks) ∧
    (now ≤ due → addTask app inp created now zone =
      (⟨⟨app.taskIdCounter, trim inp.taskInput, false, created, some date, some time,
          some inp.alarmToggle, none⟩ :: app.tasks, app.currentFilter,
        jsAdd app.taskIdCounter 1⟩, Message.taskAdded)) ∧
    (∀ (s : TodoApp) (inp2 : FormInput) (created2 now2 : Int) (zone2 : Zone) (t : Task),
      addedTask (addTask s inp2 created2 now2 zone2) = some t →
      (t.dueDate = none ↔ t.dueTime = none) ∧
      (inp2.datetimeToggle = true → t.dueDate = inp2.taskDate ∧ t.dueTime = inp2.taskTime ∧
        t.dueDate ≠ none ∧ t.dueTime ≠ none ∧ t.hasAlarm = some inp2.alarmToggle)) ∧
    (0 ≤ (toLocalDate (now + msPerMinute) zone).year ∧
      (toLocalDate (now + msPerMinute) zone).year ≤ 9999 →
      zone.offsetOfLocal (localTime (now + msPerMinute) zone -
        localTime (now + msPerMinute) zone % 60000) = zone.offsetAt (now + msPerMinute) →
      parseLocal (toLocalDate (now + msPerMinute) zone)
          (toTimeHHMM (now + msPerMinute) zone) zone =
        some (now + msPerMinute - (now + msPerMinute) % 60000) ∧
      now < now + msPerMinute - (now + msPerMinute) % 60000 ∧
      (addTask app
        { inp with taskDate := some (toLocalDate (now + msPerMinute) zone),
                   taskTime := some (toTimeHHMM (now + msPerMinute) zone) }
        created now zone).2 = Message.taskAdded) ∧
    (∀ tz : Int, 0 ≤ (toLocalDate (now + msPerMinute) (Zone.fixed tz)).year ∧
      (toLocalDate (now + msPerMinute) (Zone.fixed tz)).year ≤ 9999 →
      (addTask app
        { inp with taskDate := some (toLocalDate (now + msPerMinute) (Zone.fixed tz)),
                   taskTime := some (toTimeHHMM (now + msPerMinute) (Zone.fixed tz)) }
        created now (Zone.fixed tz)).2 = Message.taskAdded) := by
  have hlen2 : ¬ (trim inp.taskInput).length > 100 := by omega
  have hplus : ∀ z : Zone, 0 ≤ (toLocalDate (now + msPerMinute) z).year ∧
      (toLocalDate (now + msPerMinute) z).year ≤ 9999 →
      z.offsetOfLocal (localTime (now + msPerMinute) z -
        localTime (now + msPerMinute) z % 60000) = z.offsetAt (now + msPerMinute) →
      parseLocal (toLocalDate (now + msPerMinute) z) (toTimeHHMM (now + msPerMinute) z) z =
        some (now + msPerMinute - (now + msPerMinute) % 60000) ∧
      now < now + msPerMinute - (now + msPerMinute) % 60000 ∧
      (addTask app
        { inp with taskDate := some (toLocalDate (now + msPerMinute) z),
                   taskTime := some (toTimeHHMM (now + msPerMinute) z) }
        created now z).2 = Message.taskAdded := by
    intro z hy hread
    have hp := parseLocal_local (now + msPerMinute) z hy hread
    have hgt : now < now + msPerMinute - (now + msPerMinute) % 60000 := by
      simp only [msPerMinute]
      omega
    refine ⟨hp, hgt, ?_⟩
    have hnlt : ¬ (now + msPerMinute - (now + msPerMinute) % 60000 < now) := by omega
    unfold addTask
    simp only [hne, hlen2, hd, hp, dateLt, if_true, if_false, decide_eq_true_eq, hnlt]
  refine ⟨?_, ?_, ?_, hplus zone, ?_⟩
  · intro hlt
    unfold addTask
    simp only [hne, hlen2, hd, hdate, htime, hdue, dateLt, if_true, if_false,
      decide_eq_true_eq, hlt]
    exact ⟨trivial, trivial⟩
  · intro hle
    have hnlt : ¬ due < now := by omega
    unfold addTask
    simp only [hne, hlen2, hd, hdate, htime, hdue, dateLt, if_true, if_false,
      decide_eq_true_eq, hnlt]
  · intro s inp2 created2 now2 zone2 t ht
    unfold addedTask at ht
    split_ifs at ht with hmsg
    obtain ⟨u, hu, -, -, -, -, -, hoff, hon⟩ := addTask_added s inp2 created2 now2 zone2 hmsg
    rw [hu] at ht
    simp only [List.head?_cons, Option.some.injEq] at ht
    subst ht
    cases htog : inp2.datetimeToggle
    · obtain ⟨h1, h2, -⟩ := hoff htog
      simp [h1, h2]
    · obtain ⟨d, c, h1, h2, h3, h4, h5, -⟩ := hon htog
      simp [h1, h2, h3, h4, h5]
  · intro tz hy
    exact (hplus (Zone.fixed tz) hy rfl).2.2

/-- C10 as amended, at a concrete input: on a clock that shows 1970-01-01 00:01:30 (UTC),
a task for 00:02 is accepted and a task for 00:01 is refused. -/
theorem addTask_scheduled_witness :
    parseLocal ⟨1970, 1, 1⟩ ⟨0, 2⟩ (Zone.fixed 0) = some 120000 ∧
    addTask ⟨[], Filter.all, 1⟩ ⟨[120], true, some ⟨1970, 1, 1⟩, some ⟨0, 2⟩, true⟩
        89990 90000 (Zone.fixed 0) =
      (⟨[⟨1, [120], false, 89990, some ⟨1970, 1, 1⟩, some ⟨0, 2⟩, some true, none⟩],
        Filter.all, 2⟩, Message.taskAdded) ∧
    (addTask ⟨[], Filter.all, 1⟩ ⟨[120], true, some ⟨1970, 1, 1⟩, some ⟨0, 1⟩, true⟩
      89990 90000 (Zone.fixed 0)).2 = Message.inThePast :=
  ⟨by decide,
    (addTask_scheduled ⟨[], Filter.all, 1⟩
      ⟨[120], true, some ⟨1970, 1, 1⟩, some ⟨0, 2⟩, true⟩ 89990 90000 (Zone.fixed 0)
      ⟨1970, 1, 1⟩ ⟨0, 2⟩ 120000
      (by decide) (by decide) rfl rfl rfl (by decide)).2.1 (by decide),
    ((addTask_scheduled ⟨[], Filter.all, 1⟩
      ⟨[120], true, some ⟨1970, 1, 1⟩, some ⟨0, 1⟩, true⟩ 89990 90000 (Zone.fixed 0)
      ⟨1970, 1, 1⟩ ⟨0, 1⟩ 60000
      (by decide) (by decide) rfl rfl rfl (by decide)).1 (by decide)).1⟩

/-! ## Which clock the alarm scan reads (C6) -/

/-- A tick on which `triggerAlarm` returns calls it for the task at a position exactly when
that task has `hasAlarm` true, is not completed, is not marked as triggered, and has the
UTC date and the local-clock `'HH:MM'` of the tick as due date and time. -/
theorem checkAlarms_fires_iff (app : TodoApp) (now : Int) (zone : Zone) (k : Nat) :
    callsFor k (checkAlarms app now zone true).2 = 1 ↔
      ∃ t, app.tasks[k]? = some t ∧ t.hasAlarm = some true ∧ t.completed = false ∧
        t.alarmTriggered ≠ some true ∧
        (∃ d, t.dueDate = some d ∧ toISODate now = some d) ∧
        t.dueTime = some (toTimeHHMM now zone) := by
  rw [(checkAlarms_at app now zone k).1]
  cases hk : app.tasks[k]? with
  | none => simp
  | some t =>
    simp only [Option.some.injEq, exists_eq_left']
    have hdate : (match t.dueDate, toISODate now with
        | some due, some current => due == current
        | _, _ => false) = true ↔ ∃ d, t.dueDate = some d ∧ toISODate now = some d := by
      cases t.dueDate with
      | none => simp
      | some a =>
        cases toISODate now with
        | none => simp
        | some b =>
          simp only [beq_iff_eq, Option.some.injEq, exists_eq_left']
          exact eq_comm
    by_cases hdue : alarmDue t (toISODate now) (toTimeHHMM now zone) = true
    · simp only [hdue, if_true, true_iff]
      simp only [alarmDue, Bool.and_eq_true, beq_iff_eq, Bool.not_eq_true',
        beq_eq_false_iff_ne, ne_eq] at hdue
      obtain ⟨⟨⟨⟨h1, h2⟩, h3⟩, h4⟩, h5⟩ := hdue
      exact ⟨h1, h4, h5, hdate.mp h2, h3⟩
    · simp only [hdue, if_false]
      constructor
      · intro h
        simp at h
      · rintro ⟨h1, h4, h5, h2, h3⟩
        exfalso
        apply hdue
        simp only [alarmDue, Bool.and_eq_true, beq_iff_eq, Bool.not_eq_true',
          beq_eq_false_iff_ne, ne_eq]
        exact ⟨⟨⟨⟨h1, hdate.mpr h2⟩, h3⟩, h4⟩, h5⟩

/-- C6, the code at the failing input.  The zone is one hour east of UTC.  At
2024-01-01 23:00 local time (22:00 UTC) `addTask` accepts a task with an alarm for
2024-01-02 00:30.  The tick at 2024-01-02 00:30:20 local time falls in the due minute of the
due date, but `checkAlarms` takes the date 2024-01-01 from the UTC clock: it calls
`triggerAlarm` for no task and changes nothing.  The tick 24 hours later, on 2024-01-03 local
time, is the one that fires the alarm. -/
theorem checkAlarms_misses_local_date :
    addTask ⟨[], Filter.all, 1⟩
        ⟨[120], true, some ⟨2024, 1, 2⟩, some ⟨0, 30⟩, true⟩ 1704146400000 1704146400000
        (Zone.fixed 60) =
      (⟨[⟨1, [120], false, 1704146400000, some ⟨2024, 1, 2⟩, some ⟨0, 30⟩, some true, none⟩],
        Filter.all, 2⟩, Message.taskAdded) ∧
    toLocalDate 1704151820000 (Zone.fixed 60) = ⟨2024, 1, 2⟩ ∧
    toTimeHHMM 1704151820000 (Zone.fixed 60) = ⟨0, 30⟩ ∧
    toISODate 1704151820000 = some ⟨2024, 1, 1⟩ ∧
    checkAlarms
        ⟨[⟨1, [120], false, 1704146400000, some ⟨2024, 1, 2⟩, some ⟨0, 30⟩, some true, none⟩],
          Filter.all, 2⟩ 1704151820000 (Zone.fixed 60) true =
      (⟨[⟨1, [120], false, 1704146400000, some ⟨2024, 1, 2⟩, some ⟨0, 30⟩, some true, none⟩],
        Filter.all, 2⟩, []) ∧
    toLocalDate 1704238220000 (Zone.fixed 60) = ⟨2024, 1, 3⟩ ∧
    (checkAlarms
        ⟨[⟨1, [120], false, 1704146400000, some ⟨2024, 1, 2⟩, some ⟨0, 30⟩, some true, none⟩],
          Filter.all, 2⟩ 1704238220000 (Zone.fixed 60) true).2 =
      [(0, ⟨1, [120], false, 1704146400000, some ⟨2024, 1, 2⟩, some ⟨0, 30⟩, some true,
        none⟩)] := by
  decide

end Todo
